import Mathlib

/-!
# DemonRun: the simulation step of `game.js`

A shallow embedding of the game state and of the functions `getSafeSpawnPosition`,
`spawnEnemy`, `shoot`, `update`, `restartGame` and the `touchstart` handler.

Modelling conventions.

* JavaScript numbers are exact rationals (`ℚ`); counters that only ever hold integers
  (`score`, `spawnRate`, `lastSpawn`, `hitPoints`, `jumpsRemaining`, `rollTimer`,
  `invincibleTimer`) are integers (`ℤ`).  `30 * scale` is `18`, `gravity` is `2/5`.
* The globals `player`, `platforms`, `enemies`, `bullets`, `gameOver`, `score`,
  `spawnRate`, `lastSpawn`, `lastPlatformEnd` form the record `World`, passed explicitly.
* `canvas.width` and `canvas.height` are the record `Canvas`, a parameter.
* `Math.random()` reads the head of an infinite stream `Rand` of rationals; every
  function that draws returns the rest of the stream.
* Reading a field of `platforms[platforms.length - 1]` on an empty array throws a
  `TypeError`; `update` therefore returns an `Option`, with `none` for that exception.
* The `color` fields only matter to `draw` and are left out.
-/

namespace DemonRun

/-- The canvas size, `canvas.width` and `canvas.height`. -/
structure Canvas where
  width : ℚ
  height : ℚ
  deriving DecidableEq

/-- The stream of results of successive `Math.random()` calls. -/
abbrev Rand := ℕ → ℚ

/-- The stream after one call of `Math.random()`. -/
def Rand.tail (r : Rand) : Rand := fun n => r (n + 1)

/-- Every draw lies in `[0, 1)`, as `Math.random()` promises. -/
def Rand.unit (r : Rand) : Prop := ∀ n, 0 ≤ r n ∧ r n < 1

/-! ## Game constants (lines 18-31) -/

def gravity : ℚ := 2 / 5
def jumpForce : ℚ := -8
def doubleJumpForce : ℚ := -6
def groundHeight : ℚ := 60
def scale : ℚ := 3 / 5
def safeJumpHeight : ℚ := 150

/-- The enemy types of `ENEMY_TYPES`. -/
inductive ENEMY_TYPES where
  | WALKER
  | SHOOTER
  | JUMPER
  deriving DecidableEq, Repr

/-- The player object (lines 33-43). -/
structure Player where
  x : ℚ
  y : ℚ
  w : ℚ
  h : ℚ
  ySpeed : ℚ
  onGround : Bool
  jumpsRemaining : ℤ
  rollTimer : ℤ
  invincibleTimer : ℤ
  deriving DecidableEq

/-- A terrain segment, an element of `platforms`. -/
structure Platform where
  x : ℚ
  y : ℚ
  w : ℚ
  h : ℚ
  deriving DecidableEq

/-- An enemy object (lines 87-123).  `cooldown` exists on shooters only, `jumpTimer` and
`ySpeed` on jumpers only; on the other types they are never read and are kept at `0`. -/
structure Enemy where
  type : ENEMY_TYPES
  x : ℚ
  y : ℚ
  w : ℚ
  h : ℚ
  speed : ℚ
  hitPoints : ℤ
  cooldown : ℚ
  jumpTimer : ℚ
  ySpeed : ℚ
  deriving DecidableEq

/-- A bullet object (lines 130-137). -/
structure Bullet where
  x : ℚ
  y : ℚ
  w : ℚ
  h : ℚ
  speed : ℚ
  deriving DecidableEq

/-- The mutable globals of the program. -/
structure World where
  player : Player
  platforms : List Platform
  enemies : List Enemy
  bullets : List Bullet
  gameOver : Bool
  score : ℤ
  spawnRate : ℤ
  lastSpawn : ℤ
  lastPlatformEnd : ℚ
  deriving DecidableEq

/-- The world the program builds at start-up (lines 33-57). -/
def initialWorld (c : Canvas) : World :=
  { player :=
      { x := 100
        y := c.height - groundHeight - 30 * scale
        w := 30 * scale
        h := 30 * scale
        ySpeed := 0
        onGround := false
        jumpsRemaining := 2
        rollTimer := 0
        invincibleTimer := 0 }
    platforms := [{ x := 0, y := c.height - groundHeight, w := c.width * 2, h := groundHeight }]
    enemies := []
    bullets := []
    gameOver := false
    score := 0
    spawnRate := 120
    lastSpawn := 0
    lastPlatformEnd := c.width * 2 }

/-- `getSafeSpawnPosition` (lines 59-74). -/
def getSafeSpawnPosition (c : Canvas) (s : World) : ℚ :=
  let minDistanceFromPlayer : ℚ := 300
  let minGapBetweenEnemies : ℚ := 150
  let spawnX := c.width
  let spawnX :=
    match s.enemies.getLast? with
    | some lastEnemy => max spawnX (lastEnemy.x + lastEnemy.w + minGapBetweenEnemies)
    | none => spawnX
  max spawnX (s.player.x + minDistanceFromPlayer)

/-- `spawnEnemy` (lines 76-127).  The type roll is drawn before the space test; a walker
draws a second number for its speed. -/
def spawnEnemy (c : Canvas) (s : World) (r : Rand) : World × Rand :=
  let typeRoll := r 0
  let r := r.tail
  let spawnX := getSafeSpawnPosition c s
  if spawnX > c.width + 300 then (s, r)
  else
    let baseHeight := c.height - groundHeight - 30 * scale
    if typeRoll < 3 / 5 then
      let enemy : Enemy :=
        { type := .WALKER, x := spawnX, y := baseHeight, w := 30 * scale, h := 30 * scale
          speed := 2 + r 0, hitPoints := 1, cooldown := 0, jumpTimer := 0, ySpeed := 0 }
      ({ s with enemies := s.enemies ++ [enemy] }, r.tail)
    else if typeRoll < 9 / 10 then
      let enemy : Enemy :=
        { type := .SHOOTER, x := spawnX, y := baseHeight, w := 30 * scale, h := 30 * scale
          speed := 3 / 2, hitPoints := 2, cooldown := 0, jumpTimer := 0, ySpeed := 0 }
      ({ s with enemies := s.enemies ++ [enemy] }, r)
    else
      let enemy : Enemy :=
        { type := .JUMPER, x := spawnX, y := baseHeight, w := 30 * scale, h := 30 * scale
          speed := 5 / 2, hitPoints := 3, cooldown := 0, jumpTimer := 0, ySpeed := 0 }
      ({ s with enemies := s.enemies ++ [enemy] }, r)

/-- The bullet pushed by `shoot(enemy)` (lines 129-138). -/
def shoot (enemy : Enemy) : Bullet :=
  { x := enemy.x, y := enemy.y + enemy.h / 2, w := 8, h := 8, speed := 4 }

/-- Gravity and ground collision of the player (lines 143-155). -/
def applyGravity (c : Canvas) (p : Player) : Player :=
  let p := { p with ySpeed := p.ySpeed + gravity }
  let p := { p with y := p.y + p.ySpeed }
  if p.y + p.h ≥ c.height - groundHeight then
    { p with y := c.height - groundHeight - p.h, ySpeed := 0, jumpsRemaining := 2,
             onGround := true }
  else
    { p with onGround := false }

/-- The body of `platforms.forEach(p => p.x -= 2)` (line 158). -/
def scrollPlatform (p : Platform) : Platform := { p with x := p.x - 2 }

/-- Scrolling, extension and eviction of the terrain (lines 157-175), given the last
segment after scrolling.  Returns the segments, `lastPlatformEnd` and the random stream. -/
def extendPlatforms (c : Canvas) (platforms : List Platform) (last : Platform) (r : Rand) :
    List Platform × ℚ × Rand :=
  let lastPlatformEnd := last.x + last.w
  let (platforms, lastPlatformEnd, r) :=
    if lastPlatformEnd < c.width then
      let platformWidth := 200 + r 0 * 100
      (platforms ++ [{ x := c.width, y := c.height - groundHeight, w := platformWidth,
                       h := groundHeight }],
        c.width + platformWidth, r.tail)
    else (platforms, lastPlatformEnd, r)
  let platforms :=
    match platforms with
    | p0 :: rest => if platforms.length > 3 ∧ p0.x + p0.w < 0 then rest else platforms
    | [] => platforms
  (platforms, lastPlatformEnd, r)

/-- Enemy spawning, score and difficulty (lines 177-188).  `score` is never negative, so
the remainder test `score % 10 === 0` is the divisibility test written here. -/
def spawnStep (c : Canvas) (s : World) (r : Rand) : World × Rand :=
  let s := { s with lastSpawn := s.lastSpawn + 1 }
  if s.lastSpawn ≥ s.spawnRate then
    let (s, r) := spawnEnemy c s r
    let s := { s with lastSpawn := 0 }
    let s := { s with score := s.score + 1 }
    if s.score % 10 = 0 ∧ s.spawnRate > 60 then
      ({ s with spawnRate := s.spawnRate - 3 }, r)
    else (s, r)
  else (s, r)

/-- The callback of `enemies.forEach` (lines 191-218) on one enemy: the enemy after its
move, the bullets it pushed, and the random stream. -/
def moveEnemy (c : Canvas) (player : Player) (e : Enemy) (r : Rand) :
    Enemy × List Bullet × Rand :=
  let e := { e with x := e.x - e.speed }
  match e.type with
  | .WALKER => (e, [], r)
  | .SHOOTER =>
    let e := { e with cooldown := e.cooldown - 1 }
    if |player.x - e.x| < 250 ∧ e.cooldown ≤ 0 then
      ({ e with cooldown := 80 + r 0 * 40 }, [shoot e], r.tail)
    else (e, [], r)
  | .JUMPER =>
    let e := { e with jumpTimer := e.jumpTimer - 1 }
    let (e, r) :=
      if e.jumpTimer ≤ 0 ∧ |player.x - e.x| < 150 then
        ({ e with ySpeed := -8, jumpTimer := 60 + r 0 * 40 }, r.tail)
      else (e, r)
    let e := { e with ySpeed := e.ySpeed + gravity }
    let e := { e with y := e.y + e.ySpeed }
    let e :=
      if e.y + e.h > c.height - groundHeight then
        { e with y := c.height - groundHeight - e.h, ySpeed := 0 }
      else e
    (e, [], r)

/-- The loop `enemies.forEach(...)` of lines 191-218, in list order: the moved enemies,
the bullets pushed in order, and the random stream. -/
def moveEnemies (c : Canvas) (player : Player) :
    List Enemy → Rand → List Enemy × List Bullet × Rand
  | [], r => ([], [], r)
  | e :: es, r =>
    let (e1, bs, r1) := moveEnemy c player e r
    let (es1, bs1, r2) := moveEnemies c player es r1
    (e1 :: es1, bs ++ bs1, r2)

/-- The strict overlap test written out at lines 223-224, 239-240 and 246-247, between the
player and a box with corner `(x, y)` and size `(w, h)`. -/
def overlaps (player : Player) (x y w h : ℚ) : Bool :=
  decide (player.x < x + w ∧ player.x + player.w > x ∧
          player.y < y + h ∧ player.y + player.h > y)

/-- The callback of the roll attack (lines 222-227) on one enemy. -/
def hitEnemy (player : Player) (e : Enemy) : Enemy :=
  if overlaps player e.x e.y e.w e.h then { e with hitPoints := e.hitPoints - 1 } else e

/-- Player attack during roll (lines 220-228). -/
def rollAttack (player : Player) (enemies : List Enemy) : List Enemy :=
  if player.rollTimer > 0 then enemies.map (hitEnemy player) else enemies

/-- The filter predicate of line 230. -/
def keepEnemy (e : Enemy) : Bool := decide (e.x + e.w > 0 ∧ e.hitPoints > 0)

/-- The body of `bullets.forEach(b => b.x -= b.speed)` (line 233). -/
def moveBullet (b : Bullet) : Bullet := { b with x := b.x - b.speed }

/-- The filter predicate of line 234. -/
def keepBullet (b : Bullet) : Bool := decide (b.x + b.w > 0)

/-- Collision checks (lines 236-253): the new `gameOver` flag and the player. -/
def collide (player : Player) (enemies : List Enemy) (bullets : List Bullet)
    (gameOver : Bool) : Bool × Player :=
  if player.invincibleTimer ≤ 0 then
    let gameOver := enemies.foldl (fun g e => if overlaps player e.x e.y e.w e.h then true else g)
      gameOver
    let gameOver := bullets.foldl (fun g b => if overlaps player b.x b.y b.w b.h then true else g)
      gameOver
    (gameOver, player)
  else
    (gameOver, { player with invincibleTimer := player.invincibleTimer - 1 })

/-- Roll timer (lines 255-256). -/
def rollTick (player : Player) : Player :=
  if player.rollTimer > 0 then { player with rollTimer := player.rollTimer - 1 } else player

/-- The world after physics, terrain, spawning and the enemy loop of a running tick
(lines 143-218), given the last terrain segment after scrolling. -/
def moveWorld (c : Canvas) (s : World) (last : Platform) (r : Rand) : World × Rand :=
  let player := applyGravity c s.player
  let (platforms, lastPlatformEnd, r) :=
    extendPlatforms c (s.platforms.map scrollPlatform) last r
  let s := { s with player := player, platforms := platforms,
                    lastPlatformEnd := lastPlatformEnd }
  let (s, r) := spawnStep c s r
  let (enemies, shot, r) := moveEnemies c s.player s.enemies r
  ({ s with enemies := enemies, bullets := s.bullets ++ shot }, r)

/-- The world just before the collision checks of a running tick (lines 143-234), given
the last terrain segment after scrolling. -/
def beforeCollision (c : Canvas) (s : World) (last : Platform) (r : Rand) : World × Rand :=
  let (s, r) := moveWorld c s last r
  let enemies := rollAttack s.player s.enemies
  let enemies := enemies.filter keepEnemy
  let bullets := s.bullets.map moveBullet
  let bullets := bullets.filter keepBullet
  ({ s with enemies := enemies, bullets := bullets }, r)

/-- Collision checks and roll timer (lines 236-256). -/
def afterCollision (s : World) : World :=
  let (gameOver, player) := collide s.player s.enemies s.bullets s.gameOver
  { s with gameOver := gameOver, player := rollTick player }

/-- `update` (lines 140-257).  `none` is the `TypeError` of line 159 on an empty
`platforms`. -/
def update (c : Canvas) (s : World) (r : Rand) : Option (World × Rand) :=
  if s.gameOver then some (s, r)
  else
    match (s.platforms.map scrollPlatform).getLast? with
    | none => none
    | some last =>
      let (s, r) := beforeCollision c s last r
      some (afterCollision s, r)

/-- `restartGame` (lines 342-366). -/
def restartGame (c : Canvas) (_s : World) : World :=
  { player :=
      { x := 100
        y := c.height - groundHeight - 30 * scale
        w := 30 * scale
        h := 30 * scale
        ySpeed := 0
        onGround := true
        jumpsRemaining := 2
        rollTimer := 0
        invincibleTimer := 0 }
    platforms := [{ x := 0, y := c.height - groundHeight, w := c.width * 2, h := groundHeight }]
    lastPlatformEnd := c.width * 2
    enemies := []
    bullets := []
    gameOver := false
    score := 0
    spawnRate := 120
    lastSpawn := 0 }

/-- The `touchstart` handler (lines 368-385), the primary action. -/
def touchstart (c : Canvas) (s : World) : World :=
  if s.gameOver then restartGame c s
  else if s.player.jumpsRemaining > 0 then
    let p := s.player
    let p := { p with ySpeed := if p.jumpsRemaining = 2 then jumpForce else doubleJumpForce }
    let p := { p with jumpsRemaining := p.jumpsRemaining - 1 }
    let p :=
      if p.jumpsRemaining = 0 then { p with rollTimer := 10, invincibleTimer := 15 } else p
    { s with player := p }
  else s

/-- Ticks of `update`, one random stream threaded through: `n` ticks from `s`. -/
def ticks (c : Canvas) : ℕ → World → Rand → Option (World × Rand)
  | 0, s, r => some (s, r)
  | n + 1, s, r =>
    match update c s r with
    | none => none
    | some (s1, r1) => ticks c n s1 r1

/-- What the player can do between two frames. -/
inductive Event where
  | tick
  | touch
  deriving DecidableEq, Repr

/-- A run of the program: ticks of `update` and primary actions, in order. -/
def run (c : Canvas) : List Event → World → Rand → Option (World × Rand)
  | [], s, r => some (s, r)
  | .tick :: evs, s, r =>
    match update c s r with
    | none => none
    | some (s1, r1) => run c evs s1 r1
  | .touch :: evs, s, r => run c evs (touchstart c s) r

/-! ## Concrete inputs on which the theorems below are exercised -/

/-- A landscape canvas of 800 by 400. -/
def canvas0 : Canvas := { width := 800, height := 400 }

/-- The random stream whose draws are all `q`. -/
def constRand (q : ℚ) : Rand := fun _ => q

/-- A walker as `spawnEnemy` builds it, at abscissa `x`, with speed 2. -/
def walkerAt (c : Canvas) (x : ℚ) : Enemy :=
  { type := .WALKER, x := x, y := c.height - groundHeight - 30 * scale, w := 30 * scale,
    h := 30 * scale, speed := 2, hitPoints := 1, cooldown := 0, jumpTimer := 0, ySpeed := 0 }

/-- The initial world with one walker at abscissa `x`. -/
def worldWithWalker (x : ℚ) : World :=
  { initialWorld canvas0 with enemies := [walkerAt canvas0 x] }

/-- The initial world with one walker at abscissa `x`, the player rolling and invincible. -/
def rollingWorld (x : ℚ) : World :=
  { initialWorld canvas0 with
    enemies := [walkerAt canvas0 x]
    player := { (initialWorld canvas0).player with rollTimer := 10, invincibleTimer := 15 } }

/-- The initial world with one walker at abscissa `x`, the player invincible for five
more ticks but not rolling. -/
def shieldedWorld (x : ℚ) : World :=
  { initialWorld canvas0 with
    enemies := [walkerAt canvas0 x]
    player := { (initialWorld canvas0).player with invincibleTimer := 5 } }

/-- The initial world, in game over. -/
def overWorld : World := { initialWorld canvas0 with gameOver := true }

/-- The world at start-up (`none`) or the one `restartGame` builds from a world `w`
(`some w`). -/
def startWorld (c : Canvas) : Option World → World
  | none => initialWorld c
  | some w => restartGame c w

/-- The run made of 460 idle ticks, one primary action and one more tick. -/
def lateJump : List Event := List.replicate 460 Event.tick ++ [Event.touch, Event.tick]

/-- The invariant of the idle scenario after `k` ticks without a primary action: the
game runs, the player stands at `x = 100` with no timer set, the spawn counters are those
of the `k`-th tick, and every enemy and bullet is still to the right of the bounds given. -/
def IdleInv (k : ℕ) (s : World) : Prop :=
  s.gameOver = false ∧ s.platforms ≠ [] ∧
  s.player.x = 100 ∧ s.player.w = 18 ∧ s.player.invincibleTimer = 0 ∧ s.player.rollTimer = 0 ∧
  s.spawnRate = 120 ∧
  ((k < 120 ∧ s.score = 0 ∧ s.lastSpawn = k ∧ s.enemies = []) ∨
    (120 ≤ k ∧ s.score = 1 ∧ s.lastSpawn = (k : ℤ) - 120)) ∧
  (∀ e ∈ s.enemies, e.speed ≤ 3 ∧ 400 - 3 * ((k : ℚ) - 119) ≤ e.x ∧
    (e.type = .SHOOTER → e.speed = 3 / 2 ∧ 400 - 3 / 2 * ((k : ℚ) - 119) ≤ e.x)) ∧
  (∀ b ∈ s.bullets, b.speed = 4 ∧ 955 - 4 * (k : ℚ) ≤ b.x)

/-- The spawn candidate in the words of the specification: the largest of the canvas
width, the last enemy's right edge plus 150 when there is an enemy, and the player's
abscissa plus 300. -/
def spawnCandidate (c : Canvas) (s : World) : ℚ :=
  match s.enemies.getLast? with
  | none => max c.width (s.player.x + 300)
  | some lastEnemy => max c.width (max (lastEnemy.x + lastEnemy.w + 150) (s.player.x + 300))

/-- The world after physics, terrain and the spawn phase of a running tick (lines
143-188), given the last terrain segment after scrolling: `moveWorld` before its enemy
loop. -/
def afterSpawn (c : Canvas) (s : World) (last : Platform) (r : Rand) : World × Rand :=
  let player := applyGravity c s.player
  let (platforms, lastPlatformEnd, r) :=
    extendPlatforms c (s.platforms.map scrollPlatform) last r
  let s := { s with player := player, platforms := platforms,
                    lastPlatformEnd := lastPlatformEnd }
  spawnStep c s r

/-- An 800 by 400 world whose only enemy, a walker at 1000, leaves no room for a spawn,
one tick before the spawn counter reaches `spawnRate`. -/
def backedUpWorld : World := { worldWithWalker 1000 with lastSpawn := 119 }

/-- The initial world with one bullet, as `shoot` builds it, at abscissa `x`. -/
def worldWithBullet (x : ℚ) : World :=
  { initialWorld canvas0 with
    bullets := [{ x := x, y := canvas0.height - groundHeight - 9, w := 8, h := 8, speed := 4 }] }

/-- The last terrain segment reaches the right edge of the canvas and `lastPlatformEnd`
is its right edge. -/
def LastReaches (c : Canvas) (s : World) : Prop :=
  ∃ last, s.platforms.getLast? = some last ∧ c.width ≤ last.x + last.w ∧
    s.lastPlatformEnd = last.x + last.w

/-- What one running tick does to an enemy that stays in the list: the callback of the
enemy loop (lines 191-218) with the player and random stream of that tick, then the roll
attack (lines 221-227) if the player is rolling. -/
def stepEnemy (c : Canvas) (e : Enemy) (pr : Player × Rand) : Enemy :=
  let e1 := (moveEnemy c pr.1 e pr.2).1
  if pr.1.rollTimer > 0 then hitEnemy pr.1 e1 else e1

/-- An enemy followed through successive running ticks, given the player and the random
stream the enemy loop has reached at each of them. -/
def followEnemy (c : Canvas) (e : Enemy) (trace : List (Player × Rand)) : Enemy :=
  trace.foldl (stepEnemy c) e

/-- The test of line 198 for an enemy `e` taken at the start of the tick: after the move
and the decrement, the shooter is closer than 250 to the player and its cooldown is
`≤ 0`. -/
def shootsNow (player : Player) (e : Enemy) : Prop :=
  |player.x - (e.x - e.speed)| < 250 ∧ e.cooldown - 1 ≤ 0

/-- The test of line 206 for an enemy `e` taken at the start of the tick: after the move
and the decrement, the jump timer is `≤ 0` and the jumper is closer than 150 to the
player. -/
def jumpsNow (player : Player) (e : Enemy) : Prop :=
  e.jumpTimer - 1 ≤ 0 ∧ |player.x - (e.x - e.speed)| < 150

/-- The jumper rests on the ground (`Or.inl`) or is in the `n`-th tick of a jump, with
`1 ≤ n ≤ 39`, at the height and speed of that tick and with a jump timer that cannot run
out before it lands. -/
def JumperInv (c : Canvas) (e : Enemy) : Prop :=
  e.type = .JUMPER ∧
  ((e.y + e.h = c.height - groundHeight ∧ e.ySpeed = 0) ∨
    ∃ n : ℕ, 1 ≤ n ∧ n ≤ 39 ∧ e.ySpeed = -8 + 2 / 5 * (n : ℚ) ∧
      e.y + e.h = c.height - groundHeight - 8 * (n : ℚ) + 1 / 5 * (n : ℚ) * ((n : ℚ) + 1) ∧
      61 - (n : ℚ) ≤ e.jumpTimer)

/-- A shooter as `spawnEnemy` builds it, at abscissa `x`. -/
def shooterAt (c : Canvas) (x : ℚ) : Enemy :=
  { type := .SHOOTER, x := x, y := c.height - groundHeight - 30 * scale, w := 30 * scale,
    h := 30 * scale, speed := 3 / 2, hitPoints := 2, cooldown := 0, jumpTimer := 0, ySpeed := 0 }

/-- A jumper as `spawnEnemy` builds it, at abscissa `x`. -/
def jumperAt (c : Canvas) (x : ℚ) : Enemy :=
  { type := .JUMPER, x := x, y := c.height - groundHeight - 30 * scale, w := 30 * scale,
    h := 30 * scale, speed := 5 / 2, hitPoints := 3, cooldown := 0, jumpTimer := 0, ySpeed := 0 }

/-- Seventy-nine ticks with the player of the initial world and all draws 0. -/
def idleTrace : List (Player × Rand) :=
  List.replicate 79 ((initialWorld canvas0).player, constRand 0)

/-- The strict overlap of the player's box with a box, as a proposition. -/
def Overlap (p : Player) (x y w h : ℚ) : Prop :=
  p.x < x + w ∧ p.x + p.w > x ∧ p.y < y + h ∧ p.y + p.h > y

/-! ## Basic facts about the phases of `update` -/

theorem overlaps_iff (p : Player) (x y w h : ℚ) : overlaps p x y w h = true ↔ Overlap p x y w h := by
  simp [overlaps, Overlap]

theorem spawnEnemy_player (c : Canvas) (s : World) (r : Rand) :
    (spawnEnemy c s r).1.player = s.player := by
  unfold spawnEnemy
  simp only []
  split_ifs <;> rfl

theorem spawnEnemy_gameOver (c : Canvas) (s : World) (r : Rand) :
    (spawnEnemy c s r).1.gameOver = s.gameOver := by
  unfold spawnEnemy
  simp only []
  split_ifs <;> rfl

theorem spawnEnemy_bullets (c : Canvas) (s : World) (r : Rand) :
    (spawnEnemy c s r).1.bullets = s.bullets := by
  unfold spawnEnemy
  simp only []
  split_ifs <;> rfl

theorem spawnEnemy_platforms (c : Canvas) (s : World) (r : Rand) :
    (spawnEnemy c s r).1.platforms = s.platforms := by
  unfold spawnEnemy
  simp only []
  split_ifs <;> rfl

theorem spawnEnemy_score (c : Canvas) (s : World) (r : Rand) :
    (spawnEnemy c s r).1.score = s.score := by
  unfold spawnEnemy
  simp only []
  split_ifs <;> rfl

theorem spawnEnemy_spawnRate (c : Canvas) (s : World) (r : Rand) :
    (spawnEnemy c s r).1.spawnRate = s.spawnRate := by
  unfold spawnEnemy
  simp only []
  split_ifs <;> rfl

theorem spawnEnemy_lastPlatformEnd (c : Canvas) (s : World) (r : Rand) :
    (spawnEnemy c s r).1.lastPlatformEnd = s.lastPlatformEnd := by
  unfold spawnEnemy
  simp only []
  split_ifs <;> rfl

theorem spawnStep_player (c : Canvas) (s : World) (r : Rand) :
    (spawnStep c s r).1.player = s.player := by
  unfold spawnStep
  simp only []
  split_ifs <;> simp [spawnEnemy_player]

theorem spawnStep_gameOver (c : Canvas) (s : World) (r : Rand) :
    (spawnStep c s r).1.gameOver = s.gameOver := by
  unfold spawnStep
  simp only []
  split_ifs <;> simp [spawnEnemy_gameOver]

theorem spawnStep_bullets (c : Canvas) (s : World) (r : Rand) :
    (spawnStep c s r).1.bullets = s.bullets := by
  unfold spawnStep
  simp only []
  split_ifs <;> simp [spawnEnemy_bullets]

theorem spawnStep_platforms (c : Canvas) (s : World) (r : Rand) :
    (spawnStep c s r).1.platforms = s.platforms := by
  unfold spawnStep
  simp only []
  split_ifs <;> simp [spawnEnemy_platforms]

theorem spawnStep_lastPlatformEnd (c : Canvas) (s : World) (r : Rand) :
    (spawnStep c s r).1.lastPlatformEnd = s.lastPlatformEnd := by
  unfold spawnStep
  simp only []
  split_ifs <;> simp [spawnEnemy_lastPlatformEnd]

theorem applyGravity_box (c : Canvas) (p : Player) :
    (applyGravity c p).x = p.x ∧ (applyGravity c p).w = p.w ∧ (applyGravity c p).h = p.h ∧
      (applyGravity c p).rollTimer = p.rollTimer ∧
      (applyGravity c p).invincibleTimer = p.invincibleTimer := by
  unfold applyGravity
  simp only []
  split_ifs <;> simp

theorem moveWorld_player (c : Canvas) (s : World) (last : Platform) (r : Rand) :
    (moveWorld c s last r).1.player = applyGravity c s.player := by
  simp [moveWorld, spawnStep_player]

theorem moveWorld_gameOver (c : Canvas) (s : World) (last : Platform) (r : Rand) :
    (moveWorld c s last r).1.gameOver = s.gameOver := by
  simp [moveWorld, spawnStep_gameOver]

theorem moveWorld_platforms (c : Canvas) (s : World) (last : Platform) (r : Rand) :
    (moveWorld c s last r).1.platforms =
      (extendPlatforms c (s.platforms.map scrollPlatform) last r).1 := by
  simp [moveWorld, spawnStep_platforms]

theorem moveWorld_lastPlatformEnd (c : Canvas) (s : World) (last : Platform) (r : Rand) :
    (moveWorld c s last r).1.lastPlatformEnd =
      (extendPlatforms c (s.platforms.map scrollPlatform) last r).2.1 := by
  simp [moveWorld, spawnStep_lastPlatformEnd]

theorem beforeCollision_player (c : Canvas) (s : World) (last : Platform) (r : Rand) :
    (beforeCollision c s last r).1.player = applyGravity c s.player := by
  simp [beforeCollision, moveWorld_player]

theorem beforeCollision_gameOver (c : Canvas) (s : World) (last : Platform) (r : Rand) :
    (beforeCollision c s last r).1.gameOver = s.gameOver := by
  simp [beforeCollision, moveWorld_gameOver]

theorem beforeCollision_platforms (c : Canvas) (s : World) (last : Platform) (r : Rand) :
    (beforeCollision c s last r).1.platforms =
      (extendPlatforms c (s.platforms.map scrollPlatform) last r).1 := by
  simp [beforeCollision, moveWorld_platforms]

theorem beforeCollision_enemies (c : Canvas) (s : World) (last : Platform) (r : Rand) :
    (beforeCollision c s last r).1.enemies =
      (rollAttack (applyGravity c s.player) (moveWorld c s last r).1.enemies).filter keepEnemy := by
  simp [beforeCollision, moveWorld_player]

theorem beforeCollision_bullets (c : Canvas) (s : World) (last : Platform) (r : Rand) :
    (beforeCollision c s last r).1.bullets =
      ((moveWorld c s last r).1.bullets.map moveBullet).filter keepBullet := by
  simp [beforeCollision]

theorem rollTick_box (p : Player) :
    (rollTick p).x = p.x ∧ (rollTick p).y = p.y ∧ (rollTick p).w = p.w ∧ (rollTick p).h = p.h ∧
      (rollTick p).invincibleTimer = p.invincibleTimer ∧
      (rollTick p).jumpsRemaining = p.jumpsRemaining ∧ (rollTick p).ySpeed = p.ySpeed ∧
      (rollTick p).onGround = p.onGround := by
  unfold rollTick
  split_ifs <;> simp

theorem collide_box (p : Player) (es : List Enemy) (bs : List Bullet) (g : Bool) :
    (collide p es bs g).2.x = p.x ∧ (collide p es bs g).2.y = p.y ∧
      (collide p es bs g).2.w = p.w ∧ (collide p es bs g).2.h = p.h ∧
      (collide p es bs g).2.rollTimer = p.rollTimer ∧
      (collide p es bs g).2.jumpsRemaining = p.jumpsRemaining ∧
      (collide p es bs g).2.ySpeed = p.ySpeed ∧ (collide p es bs g).2.onGround = p.onGround := by
  unfold collide
  split_ifs <;> simp

/-- A `forEach` that can only raise a flag: the flag ends up raised iff it was raised
before or some element satisfies the test. -/
theorem foldl_flag {α : Type} (t : α → Bool) (l : List α) (g : Bool) :
    l.foldl (fun g a => if t a then true else g) g = true ↔ g = true ∨ ∃ a ∈ l, t a = true := by
  induction l generalizing g with
  | nil => simp
  | cons a l ih =>
    rw [List.foldl_cons, ih]
    by_cases h : t a = true
    · simp [h]
    · simp [h]

/-- With no invincibility left, the collision checks raise `gameOver` iff it was already
raised or some enemy or bullet strictly overlaps the player. -/
theorem collide_flag (p : Player) (es : List Enemy) (bs : List Bullet) (g : Bool)
    (h : p.invincibleTimer ≤ 0) :
    (collide p es bs g).1 = true ↔
      g = true ∨ (∃ e ∈ es, Overlap p e.x e.y e.w e.h) ∨ (∃ b ∈ bs, Overlap p b.x b.y b.w b.h) := by
  unfold collide
  rw [if_pos h]
  simp only []
  rw [foldl_flag (fun b : Bullet => overlaps p b.x b.y b.w b.h),
    foldl_flag (fun e : Enemy => overlaps p e.x e.y e.w e.h)]
  simp only [overlaps_iff, or_assoc]

/-- A running tick on a non-empty terrain returns: it is the collision phase applied to
the world built by the earlier phases. -/
theorem update_running (c : Canvas) (s : World) (r : Rand) (hrun : s.gameOver = false)
    (hp : s.platforms ≠ []) :
    ∃ last, (s.platforms.map scrollPlatform).getLast? = some last ∧
      update c s r =
        some (afterCollision (beforeCollision c s last r).1, (beforeCollision c s last r).2) := by
  have hne : s.platforms.map scrollPlatform ≠ [] := by simpa using hp
  refine ⟨(s.platforms.map scrollPlatform).getLast hne, List.getLast?_eq_getLast _ hne, ?_⟩
  unfold update
  rw [List.getLast?_eq_getLast _ hne]
  simp [hrun]

/-- In game over, `update` returns at once. -/
theorem update_gameOver (c : Canvas) (s : World) (r : Rand) (h : s.gameOver = true) :
    update c s r = some (s, r) := by
  simp [update, h]

theorem Overlap_congr (p q : Player) (x y w h : ℚ) (hx : p.x = q.x) (hy : p.y = q.y)
    (hw : p.w = q.w) (hh : p.h = q.h) : Overlap p x y w h ↔ Overlap q x y w h := by
  simp [Overlap, hx, hy, hw, hh]

theorem getSafeSpawnPosition_ge (c : Canvas) (s : World) :
    c.width ≤ getSafeSpawnPosition c s ∧ s.player.x + 300 ≤ getSafeSpawnPosition c s ∧
      ∀ last, s.enemies.getLast? = some last → last.x + last.w + 150 ≤ getSafeSpawnPosition c s := by
  unfold getSafeSpawnPosition
  simp only []
  refine ⟨?_, le_max_right _ _, ?_⟩
  · cases s.enemies.getLast? with
    | none => exact le_max_left _ _
    | some l => exact le_trans (le_max_left _ _) (le_max_left _ _)
  · intro last h
    rw [h]
    exact le_trans (le_max_right _ _) (le_max_left _ _)

/-- The two outcomes of `spawnEnemy`: the world is untouched when the spawn position is
more than 300 beyond the canvas, otherwise exactly one enemy of one of the three types
is appended at the spawn position. -/
theorem spawnEnemy_cases (c : Canvas) (s : World) (r : Rand) :
    (getSafeSpawnPosition c s > c.width + 300 ∧ (spawnEnemy c s r).1 = s) ∨
    (getSafeSpawnPosition c s ≤ c.width + 300 ∧
      ∃ e : Enemy, (spawnEnemy c s r).1 = { s with enemies := s.enemies ++ [e] } ∧
        e.x = getSafeSpawnPosition c s ∧ e.y = c.height - groundHeight - 30 * scale ∧
        e.w = 30 * scale ∧ e.h = 30 * scale ∧
        ((e.type = .WALKER ∧ e.speed = 2 + r 1 ∧ e.hitPoints = 1) ∨
         (e.type = .SHOOTER ∧ e.speed = 3 / 2 ∧ e.hitPoints = 2 ∧ e.cooldown = 0) ∨
         (e.type = .JUMPER ∧ e.speed = 5 / 2 ∧ e.hitPoints = 3 ∧ e.jumpTimer = 0 ∧
            e.ySpeed = 0))) := by
  unfold spawnEnemy
  simp only []
  split_ifs with h1 h2 h3
  · exact Or.inl ⟨h1, rfl⟩
  · exact Or.inr ⟨not_lt.mp h1, _, rfl, rfl, rfl, rfl, rfl, Or.inl ⟨rfl, rfl, rfl⟩⟩
  · exact Or.inr ⟨not_lt.mp h1, _, rfl, rfl, rfl, rfl, rfl, Or.inr (Or.inl ⟨rfl, rfl, rfl, rfl⟩)⟩
  · exact Or.inr ⟨not_lt.mp h1, _, rfl, rfl, rfl, rfl, rfl,
      Or.inr (Or.inr ⟨rfl, rfl, rfl, rfl, rfl⟩)⟩

/-! ## The claims -/

/-- C10. In game over `update` leaves the whole world (and the random stream) unchanged,
so any number of ticks in game over is the identity. -/
theorem gameOver_freezes (c : Canvas) (s : World) (r : Rand) (n : ℕ) (h : s.gameOver = true) :
    update c s r = some (s, r) ∧ ticks c n s r = some (s, r) := by
  refine ⟨update_gameOver c s r h, ?_⟩
  induction n with
  | zero => rfl
  | succ n ih => simp [ticks, update_gameOver c s r h, ih]

/-- C5. From a running state with two jumps left, a first primary action leaves one jump,
sets `ySpeed` to -8 and keeps both timers; a second one leaves no jump, sets `ySpeed` to
-6, `rollTimer` to 10 and `invincibleTimer` to 15; a third one changes nothing. -/
theorem double_jump (c : Canvas) (s : World) (hrun : s.gameOver = false)
    (h2 : s.player.jumpsRemaining = 2) :
    ((touchstart c s).player.jumpsRemaining = 1 ∧ (touchstart c s).player.ySpeed = -8 ∧
      (touchstart c s).player.rollTimer = s.player.rollTimer ∧
      (touchstart c s).player.invincibleTimer = s.player.invincibleTimer ∧
      (touchstart c s).gameOver = false) ∧
    ((touchstart c (touchstart c s)).player.jumpsRemaining = 0 ∧
      (touchstart c (touchstart c s)).player.ySpeed = -6 ∧
      (touchstart c (touchstart c s)).player.rollTimer = 10 ∧
      (touchstart c (touchstart c s)).player.invincibleTimer = 15 ∧
      (touchstart c (touchstart c s)).gameOver = false) ∧
    touchstart c (touchstart c (touchstart c s)) = touchstart c (touchstart c s) := by
  have e1 : touchstart c s =
      { s with player := { s.player with ySpeed := -8, jumpsRemaining := 1 } } := by
    simp [touchstart, hrun, h2, jumpForce]
  have e2 : touchstart c (touchstart c s) =
      { s with player := { s.player with ySpeed := -6, jumpsRemaining := 0, rollTimer := 10,
                                         invincibleTimer := 15 } } := by
    rw [e1]
    simp [touchstart, hrun, doubleJumpForce]
  refine ⟨?_, ?_, ?_⟩
  · rw [e1]; simp [hrun]
  · rw [e2]; simp [hrun]
  · rw [e2]; simp [touchstart, hrun]

/-- C6. When `spawnEnemy` appends an enemy `e`, `e.x` is at least `player.x + 300` and, if
the list was not empty, at least the right edge of its last enemy plus 150. -/
theorem spawn_spacing (c : Canvas) (s : World) (r : Rand) (e : Enemy)
    (h : (spawnEnemy c s r).1.enemies = s.enemies ++ [e]) :
    e.x ≥ s.player.x + 300 ∧
      ∀ last, s.enemies.getLast? = some last → e.x ≥ last.x + last.w + 150 := by
  have hx : e.x = getSafeSpawnPosition c s := by
    rcases spawnEnemy_cases c s r with ⟨_, h1⟩ | ⟨_, e1, h1, hx1, _⟩
    · rw [h1] at h
      simp at h
    · rw [h1] at h
      simp only [List.append_cancel_left_eq, List.cons.injEq, and_true] at h
      rw [← h]
      exact hx1
  rw [hx]
  exact ⟨(getSafeSpawnPosition_ge c s).2.1, (getSafeSpawnPosition_ge c s).2.2⟩

/-- C3. A running tick that starts with `invincibleTimer > 0` ends with `gameOver` still
false, whatever overlaps the player, and with `invincibleTimer` one less. -/
theorem lethality_gating (c : Canvas) (s : World) (r : Rand) (hrun : s.gameOver = false)
    (hp : s.platforms ≠ []) (hinv : s.player.invincibleTimer > 0) :
    ∃ s1 r1, update c s r = some (s1, r1) ∧ s1.gameOver = false ∧
      s1.player.invincibleTimer = s.player.invincibleTimer - 1 := by
  obtain ⟨last, _, hu⟩ := update_running c s r hrun hp
  refine ⟨_, _, hu, ?_, ?_⟩
  · simp [afterCollision, collide, beforeCollision_player, beforeCollision_gameOver,
      (applyGravity_box c s.player).2.2.2.2, not_le.mpr hinv, hrun]
  · simp [afterCollision, collide, beforeCollision_player, (rollTick_box _).2.2.2.2.1,
      (applyGravity_box c s.player).2.2.2.2, not_le.mpr hinv]

/-- C2. A running tick that starts with `invincibleTimer = 0` ends in game over exactly
when, among the enemies and bullets left after movement, roll damage and removal, one
strictly overlaps the player's box on both axes. -/
theorem lethal_collision (c : Canvas) (s : World) (r : Rand) (hrun : s.gameOver = false)
    (hp : s.platforms ≠ []) (hinv : s.player.invincibleTimer = 0) :
    ∃ last s1 r1, (s.platforms.map scrollPlatform).getLast? = some last ∧
      update c s r = some (s1, r1) ∧
      s1.enemies = (beforeCollision c s last r).1.enemies ∧
      s1.bullets = (beforeCollision c s last r).1.bullets ∧
      (s1.gameOver = true ↔
        (∃ e ∈ s1.enemies, s1.player.x < e.x + e.w ∧ s1.player.x + s1.player.w > e.x ∧
            s1.player.y < e.y + e.h ∧ s1.player.y + s1.player.h > e.y) ∨
        (∃ b ∈ s1.bullets, s1.player.x < b.x + b.w ∧ s1.player.x + s1.player.w > b.x ∧
            s1.player.y < b.y + b.h ∧ s1.player.y + s1.player.h > b.y)) := by
  obtain ⟨last, hl, hu⟩ := update_running c s r hrun hp
  refine ⟨last, _, _, hl, hu, rfl, rfl, ?_⟩
  have hinv1 : (beforeCollision c s last r).1.player.invincibleTimer ≤ 0 := by
    rw [beforeCollision_player, (applyGravity_box c s.player).2.2.2.2, hinv]
  have hbox := collide_box (beforeCollision c s last r).1.player
    (beforeCollision c s last r).1.enemies (beforeCollision c s last r).1.bullets
    (beforeCollision c s last r).1.gameOver
  have hroll := rollTick_box (collide (beforeCollision c s last r).1.player
    (beforeCollision c s last r).1.enemies (beforeCollision c s last r).1.bullets
    (beforeCollision c s last r).1.gameOver).2
  have hflag := collide_flag (beforeCollision c s last r).1.player
    (beforeCollision c s last r).1.enemies (beforeCollision c s last r).1.bullets
    (beforeCollision c s last r).1.gameOver hinv1
  simp only [afterCollision, hroll.1, hroll.2.1, hroll.2.2.1, hroll.2.2.2.1, hbox.1, hbox.2.1,
    hbox.2.2.1, hbox.2.2.2.1]
  rw [hflag, beforeCollision_gameOver, hrun]
  simp [Overlap]

/-- Witness of C10 on the initial world put in game over, for seven ticks. -/
theorem gameOver_freezes_witness :
    overWorld.gameOver = true ∧
      (update canvas0 overWorld (constRand 0) = some (overWorld, constRand 0) ∧
        ticks canvas0 7 overWorld (constRand 0) = some (overWorld, constRand 0)) :=
  ⟨rfl, gameOver_freezes canvas0 overWorld (constRand 0) 7 rfl⟩

/-- Witness of C5 on the initial world of an 800 by 400 canvas. -/
theorem double_jump_witness :
    ((initialWorld canvas0).gameOver = false ∧ (initialWorld canvas0).player.jumpsRemaining = 2) ∧
    (((touchstart canvas0 (initialWorld canvas0)).player.jumpsRemaining = 1 ∧
      (touchstart canvas0 (initialWorld canvas0)).player.ySpeed = -8 ∧
      (touchstart canvas0 (initialWorld canvas0)).player.rollTimer =
        (initialWorld canvas0).player.rollTimer ∧
      (touchstart canvas0 (initialWorld canvas0)).player.invincibleTimer =
        (initialWorld canvas0).player.invincibleTimer ∧
      (touchstart canvas0 (initialWorld canvas0)).gameOver = false) ∧
    ((touchstart canvas0 (touchstart canvas0 (initialWorld canvas0))).player.jumpsRemaining = 0 ∧
      (touchstart canvas0 (touchstart canvas0 (initialWorld canvas0))).player.ySpeed = -6 ∧
      (touchstart canvas0 (touchstart canvas0 (initialWorld canvas0))).player.rollTimer = 10 ∧
      (touchstart canvas0 (touchstart canvas0 (initialWorld canvas0))).player.invincibleTimer
        = 15 ∧
      (touchstart canvas0 (touchstart canvas0 (initialWorld canvas0))).gameOver = false) ∧
    touchstart canvas0 (touchstart canvas0 (touchstart canvas0 (initialWorld canvas0))) =
      touchstart canvas0 (touchstart canvas0 (initialWorld canvas0))) :=
  ⟨⟨rfl, rfl⟩, double_jump canvas0 (initialWorld canvas0) rfl rfl⟩

/-- Witness of C6: with one walker at 900, the new enemy appears at 1068 = 900 + 18 + 150. -/
theorem spawn_spacing_witness :
    (spawnEnemy canvas0 (worldWithWalker 900) (constRand 0)).1.enemies =
        (worldWithWalker 900).enemies ++ [walkerAt canvas0 1068] ∧
      ((walkerAt canvas0 1068).x ≥ (worldWithWalker 900).player.x + 300 ∧
        ∀ last, (worldWithWalker 900).enemies.getLast? = some last →
          (walkerAt canvas0 1068).x ≥ last.x + last.w + 150) :=
  ⟨by decide!, spawn_spacing canvas0 (worldWithWalker 900) (constRand 0)
    (walkerAt canvas0 1068) (by decide!)⟩

/-- Witness of C3: a walker overlaps the invincible player and the game goes on. -/
theorem lethality_gating_witness :
    ((shieldedWorld 110).gameOver = false ∧ (shieldedWorld 110).platforms ≠ [] ∧
      (shieldedWorld 110).player.invincibleTimer > 0) ∧
    ∃ s1 r1, update canvas0 (shieldedWorld 110) (constRand 0) = some (s1, r1) ∧
      s1.gameOver = false ∧
      s1.player.invincibleTimer = (shieldedWorld 110).player.invincibleTimer - 1 :=
  ⟨⟨rfl, by decide, by decide⟩,
    lethality_gating canvas0 (shieldedWorld 110) (constRand 0) rfl (by decide) (by decide)⟩

/-- Witness of C2 on a world whose walker ends the tick touching the player's right edge. -/
theorem lethal_collision_witness :
    ((worldWithWalker 120).gameOver = false ∧ (worldWithWalker 120).platforms ≠ [] ∧
      (worldWithWalker 120).player.invincibleTimer = 0) ∧
    ∃ last s1 r1, ((worldWithWalker 120).platforms.map scrollPlatform).getLast? = some last ∧
      update canvas0 (worldWithWalker 120) (constRand 0) = some (s1, r1) ∧
      s1.enemies = (beforeCollision canvas0 (worldWithWalker 120) last (constRand 0)).1.enemies ∧
      s1.bullets = (beforeCollision canvas0 (worldWithWalker 120) last (constRand 0)).1.bullets ∧
      (s1.gameOver = true ↔
        (∃ e ∈ s1.enemies, s1.player.x < e.x + e.w ∧ s1.player.x + s1.player.w > e.x ∧
            s1.player.y < e.y + e.h ∧ s1.player.y + s1.player.h > e.y) ∨
        (∃ b ∈ s1.bullets, s1.player.x < b.x + b.w ∧ s1.player.x + s1.player.w > b.x ∧
            s1.player.y < b.y + b.h ∧ s1.player.y + s1.player.h > b.y)) :=
  ⟨⟨rfl, by decide, rfl⟩,
    lethal_collision canvas0 (worldWithWalker 120) (constRand 0) rfl (by decide) rfl⟩

/-! ## Stepping lemmas -/

/-- The two ways `update` returns: at once in game over, or through all phases. -/
theorem update_some (c : Canvas) (s s1 : World) (r r1 : Rand)
    (h : update c s r = some (s1, r1)) :
    (s.gameOver = true ∧ s1 = s ∧ r1 = r) ∨
    (s.gameOver = false ∧ s.platforms ≠ [] ∧
      ∃ last, (s.platforms.map scrollPlatform).getLast? = some last ∧
        s1 = afterCollision (beforeCollision c s last r).1 ∧ r1 = (beforeCollision c s last r).2) := by
  cases hg : s.gameOver with
  | true =>
    rw [update_gameOver c s r hg] at h
    simp only [Option.some.injEq, Prod.mk.injEq] at h
    exact Or.inl ⟨rfl, h.1.symm, h.2.symm⟩
  | false =>
    by_cases hp : s.platforms = []
    · simp [update, hg, hp] at h
    · obtain ⟨last, hl, hu⟩ := update_running c s r hg hp
      rw [hu] at h
      simp only [Option.some.injEq, Prod.mk.injEq] at h
      exact Or.inr ⟨rfl, hp, last, hl, h.1.symm, h.2.symm⟩

theorem extendPlatforms_ne (c : Canvas) (ps : List Platform) (last : Platform) (r : Rand)
    (h : ps ≠ []) : (extendPlatforms c ps last r).1 ≠ [] := by
  unfold extendPlatforms
  simp only []
  split_ifs with h1
  · simp only []
    split
    · rename_i p0 rest heq
      split_ifs with h2
      · intro hr
        rw [hr] at heq
        have := h2.1
        rw [heq] at this
        simp at this
      · simp
    · rename_i heq
      simp at heq
  · simp only []
    split
    · rename_i p0 rest
      split_ifs with h2
      · intro hr
        rw [hr] at h2
        simp at h2
      · simp
    · exact h

theorem afterCollision_fields (s : World) :
    (afterCollision s).platforms = s.platforms ∧ (afterCollision s).enemies = s.enemies ∧
      (afterCollision s).bullets = s.bullets ∧ (afterCollision s).score = s.score ∧
      (afterCollision s).spawnRate = s.spawnRate ∧ (afterCollision s).lastSpawn = s.lastSpawn ∧
      (afterCollision s).lastPlatformEnd = s.lastPlatformEnd := by
  simp [afterCollision]

/-- A tick on a non-empty terrain returns, and the terrain stays non-empty. -/
theorem update_total (c : Canvas) (s : World) (r : Rand) (hp : s.platforms ≠ []) :
    ∃ s1 r1, update c s r = some (s1, r1) ∧ s1.platforms ≠ [] := by
  cases hg : s.gameOver with
  | true => exact ⟨s, r, update_gameOver c s r hg, hp⟩
  | false =>
    obtain ⟨last, _, hu⟩ := update_running c s r hg hp
    refine ⟨_, _, hu, ?_⟩
    rw [(afterCollision_fields _).1, beforeCollision_platforms]
    exact extendPlatforms_ne c _ last r (by simpa using hp)

theorem startWorld_platforms (c : Canvas) (o : Option World) : (startWorld c o).platforms ≠ [] := by
  cases o <;> simp [startWorld, initialWorld, restartGame]

/-- Ticks from a non-empty terrain always return. -/
theorem ticks_total (c : Canvas) (n : ℕ) (s : World) (r : Rand) (hp : s.platforms ≠ []) :
    ∃ s1 r1, ticks c n s r = some (s1, r1) ∧ s1.platforms ≠ [] := by
  induction n generalizing s r with
  | zero => exact ⟨s, r, rfl, hp⟩
  | succ n ih =>
    obtain ⟨s1, r1, hu, hp1⟩ := update_total c s r hp
    obtain ⟨s2, r2, ht, hp2⟩ := ih s1 r1 hp1
    exact ⟨s2, r2, by simp [ticks, hu, ht], hp2⟩

/-- An invariant kept by every returning tick holds after any number of ticks. -/
theorem ticks_invariant (c : Canvas) (P : World → Prop)
    (hstep : ∀ s r s1 r1, P s → update c s r = some (s1, r1) → P s1)
    (n : ℕ) (s : World) (r : Rand) (s1 : World) (r1 : Rand) (h0 : P s)
    (h : ticks c n s r = some (s1, r1)) : P s1 := by
  induction n generalizing s r with
  | zero =>
    simp only [ticks, Option.some.injEq, Prod.mk.injEq] at h
    rw [← h.1]
    exact h0
  | succ n ih =>
    simp only [ticks] at h
    cases hu : update c s r with
    | none => simp [hu] at h
    | some q =>
      obtain ⟨s2, r2⟩ := q
      rw [hu] at h
      exact ih s2 r2 (hstep s r s2 r2 h0 hu) h

/-- The effect of the spawn phase on `spawnRate` and `score`. -/
theorem spawnStep_spawnRate (c : Canvas) (s : World) (r : Rand) :
    ((spawnStep c s r).1.spawnRate = s.spawnRate ∧
      ((spawnStep c s r).1.score = s.score ∨ (spawnStep c s r).1.score = s.score + 1)) ∨
    ((spawnStep c s r).1.spawnRate = s.spawnRate - 3 ∧ s.spawnRate > 60 ∧
      (spawnStep c s r).1.score = s.score + 1 ∧ (spawnStep c s r).1.score % 10 = 0) := by
  unfold spawnStep
  simp only []
  split_ifs with h1 h2
  · right
    simp only [spawnEnemy_spawnRate, spawnEnemy_score] at h2 ⊢
    exact ⟨trivial, h2.2, trivial, h2.1⟩
  · left
    simp [spawnEnemy_spawnRate, spawnEnemy_score]
  · left
    simp

theorem beforeCollision_spawn (c : Canvas) (s : World) (last : Platform) (r : Rand) :
    ∃ s0 r0, s0.spawnRate = s.spawnRate ∧ s0.score = s.score ∧ s0.lastSpawn = s.lastSpawn ∧
      (beforeCollision c s last r).1.spawnRate = (spawnStep c s0 r0).1.spawnRate ∧
      (beforeCollision c s last r).1.score = (spawnStep c s0 r0).1.score ∧
      (beforeCollision c s last r).1.lastSpawn = (spawnStep c s0 r0).1.lastSpawn := by
  refine ⟨{ s with player := applyGravity c s.player,
                   platforms := (extendPlatforms c (s.platforms.map scrollPlatform) last r).1,
                   lastPlatformEnd :=
                     (extendPlatforms c (s.platforms.map scrollPlatform) last r).2.1 },
    (extendPlatforms c (s.platforms.map scrollPlatform) last r).2.2, rfl, rfl, rfl, ?_, ?_, ?_⟩ <;>
  simp [beforeCollision, moveWorld]

/-- The effect of one returning tick on `spawnRate` and `score`. -/
theorem update_spawnRate (c : Canvas) (s s1 : World) (r r1 : Rand)
    (h : update c s r = some (s1, r1)) :
    (s1.spawnRate = s.spawnRate ∧ (s1.score = s.score ∨ s1.score = s.score + 1)) ∨
    (s1.spawnRate = s.spawnRate - 3 ∧ s.spawnRate > 60 ∧ s1.score = s.score + 1 ∧
      s1.score % 10 = 0) := by
  rcases update_some c s s1 r r1 h with ⟨_, h1, _⟩ | ⟨_, _, last, _, h1, _⟩
  · rw [h1]
    exact Or.inl ⟨rfl, Or.inl rfl⟩
  · obtain ⟨s0, r0, e1, e2, _, e4, e5, _⟩ := beforeCollision_spawn c s last r
    rw [h1, (afterCollision_fields _).2.2.2.2.1, (afterCollision_fields _).2.2.2.1, e4, e5,
      ← e1, ← e2]
    exact spawnStep_spawnRate c s0 r0

/-- C7. `spawnRate` is 120 at start-up and after `restartGame`; after any number of ticks
from there it lies in `[60, 120]`, and one more tick either keeps it or subtracts exactly
3, the latter only when `score` has just been incremented to a multiple of 10. -/
theorem difficulty_floor (c : Canvas) (o : Option World) (n : ℕ) (r : Rand) :
    (startWorld c o).spawnRate = 120 ∧
    ∃ s r1, ticks c n (startWorld c o) r = some (s, r1) ∧
      60 ≤ s.spawnRate ∧ s.spawnRate ≤ 120 ∧
      ∀ r2, ∃ s2 r3, update c s r2 = some (s2, r3) ∧
        (s2.spawnRate = s.spawnRate ∨
          (s2.spawnRate = s.spawnRate - 3 ∧ s2.score = s.score + 1 ∧ s2.score % 10 = 0)) := by
  have h120 : (startWorld c o).spawnRate = 120 := by
    cases o <;> rfl
  refine ⟨h120, ?_⟩
  obtain ⟨s, r1, ht, hp⟩ := ticks_total c n (startWorld c o) r (startWorld_platforms c o)
  have hinv : 60 ≤ s.spawnRate ∧ s.spawnRate ≤ 120 ∧ s.spawnRate % 3 = 0 := by
    refine ticks_invariant c (fun w => 60 ≤ w.spawnRate ∧ w.spawnRate ≤ 120 ∧ w.spawnRate % 3 = 0)
      ?_ n (startWorld c o) r s r1 ?_ ht
    · intro w rw w1 rw1 hw hu
      rcases update_spawnRate c w w1 rw rw1 hu with ⟨h1, _⟩ | ⟨h1, h2, _⟩
      · rw [h1]
        exact hw
      · rw [h1]
        obtain ⟨_, hw2, hw3⟩ := hw
        refine ⟨?_, ?_, ?_⟩ <;> omega
    · simp only [h120]
      decide
  refine ⟨s, r1, ht, hinv.1, hinv.2.1, ?_⟩
  intro r2
  obtain ⟨s2, r3, hu, _⟩ := update_total c s r2 hp
  refine ⟨s2, r3, hu, ?_⟩
  rcases update_spawnRate c s s2 r2 r3 hu with ⟨h1, _⟩ | ⟨h1, _, h3, h4⟩
  · exact Or.inl h1
  · exact Or.inr ⟨h1, h3, h4⟩

theorem hitEnemy_hitPoints (p : Player) (e : Enemy) :
    (Overlap p e.x e.y e.w e.h → (hitEnemy p e).hitPoints = e.hitPoints - 1) ∧
    (¬ Overlap p e.x e.y e.w e.h → hitEnemy p e = e) ∧
    (hitEnemy p e).x = e.x ∧ (hitEnemy p e).y = e.y ∧ (hitEnemy p e).w = e.w ∧
    (hitEnemy p e).h = e.h ∧ (hitEnemy p e).type = e.type := by
  unfold hitEnemy
  by_cases h : overlaps p e.x e.y e.w e.h = true
  · have h1 := (overlaps_iff p e.x e.y e.w e.h).mp h
    simp [h, h1]
  · have h1 : ¬ Overlap p e.x e.y e.w e.h := fun h2 => h ((overlaps_iff p e.x e.y e.w e.h).mpr h2)
    simp [h, h1]

/-- C8. After a running tick every enemy in the list has `hitPoints > 0`; during a roll
the list is the moved enemies, hit and then filtered, and a moved enemy with one hit point
(such as a fresh walker) that overlaps the player fails the filter in that same tick. -/
theorem no_dead_enemy (c : Canvas) (s : World) (r : Rand) (hrun : s.gameOver = false)
    (hp : s.platforms ≠ []) :
    ∃ last s1 r1, (s.platforms.map scrollPlatform).getLast? = some last ∧
      update c s r = some (s1, r1) ∧
      (∀ e ∈ s1.enemies, e.hitPoints > 0) ∧
      (s.player.rollTimer > 0 →
        s1.enemies = (((moveWorld c s last r).1.enemies).map
            (hitEnemy (moveWorld c s last r).1.player)).filter keepEnemy ∧
        ∀ e ∈ (moveWorld c s last r).1.enemies, e.hitPoints = 1 →
          Overlap (moveWorld c s last r).1.player e.x e.y e.w e.h →
          (hitEnemy (moveWorld c s last r).1.player e).hitPoints = 0 ∧
          keepEnemy (hitEnemy (moveWorld c s last r).1.player e) = false) := by
  obtain ⟨last, hl, hu⟩ := update_running c s r hrun hp
  refine ⟨last, _, _, hl, hu, ?_, ?_⟩
  · intro e he
    rw [(afterCollision_fields _).2.1, beforeCollision_enemies] at he
    have hk := (List.mem_filter.mp he).2
    simp only [keepEnemy, decide_eq_true_eq] at hk
    exact hk.2
  · intro hroll
    have hroll1 : (applyGravity c s.player).rollTimer > 0 := by
      rw [(applyGravity_box c s.player).2.2.2.1]
      exact hroll
    refine ⟨?_, ?_⟩
    · rw [(afterCollision_fields _).2.1, beforeCollision_enemies, moveWorld_player]
      simp [rollAttack, hroll1]
    · intro e _ h1 hov
      have hh := (hitEnemy_hitPoints (moveWorld c s last r).1.player e).1 hov
      rw [h1] at hh
      refine ⟨by simpa using hh, ?_⟩
      simp [keepEnemy, hh]

/-- Witness of C8 on a world whose walker overlaps the rolling player. -/
theorem no_dead_enemy_witness :
    ((rollingWorld 110).gameOver = false ∧ (rollingWorld 110).platforms ≠ []) ∧
    ∃ last s1 r1, ((rollingWorld 110).platforms.map scrollPlatform).getLast? = some last ∧
      update canvas0 (rollingWorld 110) (constRand 0) = some (s1, r1) ∧
      (∀ e ∈ s1.enemies, e.hitPoints > 0) ∧
      ((rollingWorld 110).player.rollTimer > 0 →
        s1.enemies = (((moveWorld canvas0 (rollingWorld 110) last (constRand 0)).1.enemies).map
            (hitEnemy (moveWorld canvas0 (rollingWorld 110) last (constRand 0)).1.player)).filter
              keepEnemy ∧
        ∀ e ∈ (moveWorld canvas0 (rollingWorld 110) last (constRand 0)).1.enemies,
          e.hitPoints = 1 →
          Overlap (moveWorld canvas0 (rollingWorld 110) last (constRand 0)).1.player
            e.x e.y e.w e.h →
          (hitEnemy (moveWorld canvas0 (rollingWorld 110) last (constRand 0)).1.player
              e).hitPoints = 0 ∧
          keepEnemy (hitEnemy (moveWorld canvas0 (rollingWorld 110) last (constRand 0)).1.player
              e) = false) :=
  ⟨⟨rfl, by decide⟩, no_dead_enemy canvas0 (rollingWorld 110) (constRand 0) rfl (by decide)⟩

/-- The scenario of C8 run on the code: a walker with one hit point that overlaps the
rolling player after its move is gone at the end of the tick. -/
theorem roll_removes_walker :
    (rollingWorld 110).enemies = [walkerAt canvas0 110] ∧
      (update canvas0 (rollingWorld 110) (constRand 0)).map (fun q => q.1.enemies) = some [] := by
  decide!

/-- An invariant that implies a non-empty terrain and is kept by ticks and primary
actions holds after every run, and every run returns. -/
theorem run_invariant (c : Canvas) (P : World → Prop) (hP : ∀ s, P s → s.platforms ≠ [])
    (hstep : ∀ s r s1 r1, P s → update c s r = some (s1, r1) → P s1)
    (htouch : ∀ s, P s → P (touchstart c s))
    (evs : List Event) (s : World) (r : Rand) (h0 : P s) :
    ∃ s1 r1, run c evs s r = some (s1, r1) ∧ P s1 := by
  induction evs generalizing s r with
  | nil => exact ⟨s, r, rfl, h0⟩
  | cons ev evs ih =>
    cases ev with
    | tick =>
      obtain ⟨s1, r1, hu, _⟩ := update_total c s r (hP s h0)
      obtain ⟨s2, r2, hr, h2⟩ := ih s1 r1 (hstep s r s1 r1 h0 hu)
      exact ⟨s2, r2, by simp [run, hu, hr], h2⟩
    | touch =>
      obtain ⟨s2, r2, hr, h2⟩ := ih (touchstart c s) r (htouch s h0)
      exact ⟨s2, r2, by simp [run, hr], h2⟩

theorem update_platforms (c : Canvas) (s s1 : World) (r r1 : Rand) (hp : s.platforms ≠ [])
    (h : update c s r = some (s1, r1)) : s1.platforms ≠ [] := by
  obtain ⟨s2, r2, hu, hp2⟩ := update_total c s r hp
  rw [hu] at h
  simp only [Option.some.injEq, Prod.mk.injEq] at h
  rw [← h.1]
  exact hp2

theorem touchstart_platforms (c : Canvas) (s : World) (hp : s.platforms ≠ []) :
    (touchstart c s).platforms ≠ [] := by
  unfold touchstart
  split_ifs <;> first | exact hp | simp [restartGame]

/-- Gravity and ground collision either keep `jumpsRemaining` or, when the bottom edge
reaches or passes ground level, set it to 2. -/
theorem applyGravity_jumps (c : Canvas) (p : Player) :
    (applyGravity c p).jumpsRemaining = p.jumpsRemaining ∨
    ((applyGravity c p).jumpsRemaining = 2 ∧
      p.y + (p.ySpeed + gravity) + p.h ≥ c.height - groundHeight) := by
  unfold applyGravity
  simp only []
  split_ifs with h
  · exact Or.inr ⟨rfl, h⟩
  · exact Or.inl rfl

/-- The effect of one returning tick on `jumpsRemaining`. -/
theorem update_jumps (c : Canvas) (s s1 : World) (r r1 : Rand)
    (h : update c s r = some (s1, r1)) :
    s1.player.jumpsRemaining = s.player.jumpsRemaining ∨
    (s1.player.jumpsRemaining = 2 ∧ s.gameOver = false ∧
      s.player.y + (s.player.ySpeed + gravity) + s.player.h ≥ c.height - groundHeight) := by
  rcases update_some c s s1 r r1 h with ⟨_, h1, _⟩ | ⟨hg, _, last, _, h1, _⟩
  · rw [h1]
    exact Or.inl rfl
  · have e : s1.player.jumpsRemaining = (applyGravity c s.player).jumpsRemaining := by
      rw [h1]
      simp only [afterCollision, (rollTick_box _).2.2.2.2.2.1, (collide_box _ _ _ _).2.2.2.2.2.1,
        beforeCollision_player]
    rw [e]
    rcases applyGravity_jumps c s.player with h2 | h2
    · exact Or.inl h2
    · exact Or.inr ⟨h2.1, hg, h2.2⟩

/-- The effect of a primary action on `jumpsRemaining`. -/
theorem touchstart_jumps (c : Canvas) (s : World) :
    (s.gameOver = true → (touchstart c s).player.jumpsRemaining = 2) ∧
    (s.gameOver = false → s.player.jumpsRemaining > 0 →
      (touchstart c s).player.jumpsRemaining = s.player.jumpsRemaining - 1) ∧
    (s.gameOver = false → s.player.jumpsRemaining ≤ 0 → touchstart c s = s) := by
  refine ⟨?_, ?_, ?_⟩
  · intro h
    simp [touchstart, h, restartGame]
  · intro h h1
    simp only [touchstart, h, h1]
    simp only [Bool.false_eq_true, if_false, if_true]
    split_ifs <;> rfl
  · intro h h1
    simp [touchstart, h, not_lt.mpr h1]

/-- C4 (amended). In every state reached from the initial world by ticks and primary
actions, `jumpsRemaining` is 0, 1 or 2; a tick either keeps it or sets it to exactly 2, the
latter only in a running tick in which the bottom edge reaches or passes ground level; a
primary action while the game is not over decreases it by exactly 1 when it is positive
and changes nothing when it is 0; a primary action in game over (the restart) sets it to
2. -/
theorem jump_charges (c : Canvas) (evs : List Event) (r : Rand) :
    ∃ s r1, run c evs (initialWorld c) r = some (s, r1) ∧
      (0 ≤ s.player.jumpsRemaining ∧ s.player.jumpsRemaining ≤ 2) ∧
      (∀ r2, ∃ s2 r3, update c s r2 = some (s2, r3) ∧
        (s2.player.jumpsRemaining = s.player.jumpsRemaining ∨
          (s2.player.jumpsRemaining = 2 ∧ s.gameOver = false ∧
            s.player.y + (s.player.ySpeed + gravity) + s.player.h ≥
              c.height - groundHeight))) ∧
      (s.gameOver = false → s.player.jumpsRemaining > 0 →
        (touchstart c s).player.jumpsRemaining = s.player.jumpsRemaining - 1) ∧
      (s.gameOver = false → s.player.jumpsRemaining = 0 → touchstart c s = s) ∧
      (s.gameOver = true → (touchstart c s).player.jumpsRemaining = 2) := by
  obtain ⟨s, r1, hr, hp, h0, h2⟩ := run_invariant c
    (fun w => w.platforms ≠ [] ∧ 0 ≤ w.player.jumpsRemaining ∧ w.player.jumpsRemaining ≤ 2)
    (fun w hw => hw.1)
    (by
      intro w rw w1 rw1 hw hu
      refine ⟨update_platforms c w w1 rw rw1 hw.1 hu, ?_⟩
      rcases update_jumps c w w1 rw rw1 hu with h | h
      · rw [h]
        exact hw.2
      · rw [h.1]
        decide)
    (by
      intro w hw
      refine ⟨touchstart_platforms c w hw.1, ?_⟩
      cases hg : w.gameOver with
      | true =>
        rw [(touchstart_jumps c w).1 hg]
        decide
      | false =>
        by_cases hj : w.player.jumpsRemaining > 0
        · rw [(touchstart_jumps c w).2.1 hg hj]
          omega
        · rw [(touchstart_jumps c w).2.2 hg (not_lt.mp hj)]
          exact hw.2)
    evs (initialWorld c) r ⟨by simp [initialWorld], by simp [initialWorld]⟩
  refine ⟨s, r1, hr, ⟨h0, h2⟩, ?_, (touchstart_jumps c s).2.1, ?_, (touchstart_jumps c s).1⟩
  · intro r2
    obtain ⟨s2, r3, hu, _⟩ := update_total c s r2 hp
    exact ⟨s2, r3, hu, update_jumps c s s2 r2 r3 hu⟩
  · intro hg hj
    exact (touchstart_jumps c s).2.2 hg (le_of_eq hj)

/-- Witness of C4 (amended) on a run of two jumps with a tick after each. -/
theorem jump_charges_witness :
    ∃ s r1, run canvas0 [Event.touch, Event.tick, Event.touch, Event.tick] (initialWorld canvas0)
        (constRand 0) = some (s, r1) ∧
      (0 ≤ s.player.jumpsRemaining ∧ s.player.jumpsRemaining ≤ 2) ∧
      (∀ r2, ∃ s2 r3, update canvas0 s r2 = some (s2, r3) ∧
        (s2.player.jumpsRemaining = s.player.jumpsRemaining ∨
          (s2.player.jumpsRemaining = 2 ∧ s.gameOver = false ∧
            s.player.y + (s.player.ySpeed + gravity) + s.player.h ≥
              canvas0.height - groundHeight))) ∧
      (s.gameOver = false → s.player.jumpsRemaining > 0 →
        (touchstart canvas0 s).player.jumpsRemaining = s.player.jumpsRemaining - 1) ∧
      (s.gameOver = false → s.player.jumpsRemaining = 0 → touchstart canvas0 s = s) ∧
      (s.gameOver = true → (touchstart canvas0 s).player.jumpsRemaining = 2) :=
  jump_charges canvas0 [Event.touch, Event.tick, Event.touch, Event.tick] (constRand 0)

/-- Reading a value through `Option.map`. -/
theorem option_map_some {α β : Type} (f : α → β) (o : Option α) (b : β)
    (h : o.map f = some b) : ∃ a, o = some a ∧ f a = b := by
  cases o with
  | none => simp at h
  | some a => exact ⟨a, rfl, by simpa using h⟩

/-- The run `lateJump` from the initial world on an 800 by 400 canvas, all draws 0, ends
in game over with one jump left, and the next primary action gives two jumps. -/
theorem lateJump_outcome :
    (run canvas0 lateJump (initialWorld canvas0) (constRand 0)).map
        (fun q => (q.1.gameOver, q.1.player.jumpsRemaining,
          (touchstart canvas0 q.1).player.jumpsRemaining)) = some (true, 1, 2) := by
  decide!

/-- C4 as stated fails: after 460 idle ticks, a primary action and one more tick from the
initial world on an 800 by 400 canvas (all draws 0), the game is over with one jump left,
and the next primary action, the restart, raises `jumpsRemaining` from 1 to 2. -/
theorem restart_refills_jumps :
    ¬ ∀ (evs : List Event) (r : Rand) (s : World) (r1 : Rand),
        run canvas0 evs (initialWorld canvas0) r = some (s, r1) →
        (touchstart canvas0 s).player.jumpsRemaining = s.player.jumpsRemaining ∨
        (s.player.jumpsRemaining > 0 ∧ s.gameOver = false ∧
          (touchstart canvas0 s).player.jumpsRemaining = s.player.jumpsRemaining - 1) := by
  intro h
  obtain ⟨q, hr, hq⟩ := option_map_some _ _ _ lateJump_outcome
  obtain ⟨s, r1⟩ := q
  simp only [Prod.mk.injEq] at hq
  obtain ⟨hg, h1, h2⟩ := hq
  rcases h lateJump (constRand 0) s r1 hr with h3 | ⟨_, h3, _⟩
  · rw [h1, h2] at h3
    exact absurd h3 (by decide)
  · rw [hg] at h3
    exact absurd h3 (by decide)

/-! ## The random stream stays in `[0, 1)` -/

theorem Rand.unit_tail (r : Rand) (h : r.unit) : r.tail.unit := fun n => h (n + 1)

theorem spawnEnemy_unit (c : Canvas) (s : World) (r : Rand) (h : r.unit) :
    (spawnEnemy c s r).2.unit := by
  unfold spawnEnemy
  simp only []
  split_ifs
  · exact Rand.unit_tail r h
  · exact Rand.unit_tail _ (Rand.unit_tail r h)
  · exact Rand.unit_tail r h
  · exact Rand.unit_tail r h

theorem spawnStep_unit (c : Canvas) (s : World) (r : Rand) (h : r.unit) :
    (spawnStep c s r).2.unit := by
  unfold spawnStep
  simp only []
  split_ifs
  · exact spawnEnemy_unit c _ r h
  · exact spawnEnemy_unit c _ r h
  · exact h

theorem extendPlatforms_unit (c : Canvas) (ps : List Platform) (last : Platform) (r : Rand)
    (h : r.unit) : (extendPlatforms c ps last r).2.2.unit := by
  unfold extendPlatforms
  simp only []
  split_ifs
  · exact Rand.unit_tail r h
  · exact h

/-- What the enemy loop does to one enemy: it moves left by its speed, keeps its type,
size, speed and hit points, and only a shooter closer than 250 to the player pushes a
bullet, at its own new abscissa. -/
theorem moveEnemy_spec (c : Canvas) (p : Player) (e : Enemy) (r : Rand) :
    (moveEnemy c p e r).1.x = e.x - e.speed ∧ (moveEnemy c p e r).1.speed = e.speed ∧
    (moveEnemy c p e r).1.type = e.type ∧ (moveEnemy c p e r).1.w = e.w ∧
    (moveEnemy c p e r).1.h = e.h ∧ (moveEnemy c p e r).1.hitPoints = e.hitPoints ∧
    (∀ b ∈ (moveEnemy c p e r).2.1, e.type = .SHOOTER ∧ |p.x - (e.x - e.speed)| < 250 ∧
      e.cooldown - 1 ≤ 0 ∧
      b = { x := e.x - e.speed, y := e.y + e.h / 2, w := 8, h := 8, speed := 4 }) ∧
    (r.unit → (moveEnemy c p e r).2.2.unit) := by
  unfold moveEnemy
  simp only []
  cases ht : e.type with
  | WALKER => simp
  | SHOOTER =>
    simp only []
    split_ifs with h1
    · refine ⟨rfl, rfl, rfl, rfl, rfl, rfl, ?_, fun h => Rand.unit_tail r h⟩
      intro b hb
      simp only [List.mem_singleton] at hb
      exact ⟨trivial, h1.1, h1.2, by rw [hb]; rfl⟩
    · exact ⟨rfl, rfl, rfl, rfl, rfl, rfl, by simp, fun h => h⟩
  | JUMPER =>
    simp only []
    split_ifs with h1 h2 h2
    · exact ⟨rfl, rfl, rfl, rfl, rfl, rfl, by simp, fun h => Rand.unit_tail r h⟩
    · exact ⟨rfl, rfl, rfl, rfl, rfl, rfl, by simp, fun h => Rand.unit_tail r h⟩
    · exact ⟨rfl, rfl, rfl, rfl, rfl, rfl, by simp, fun h => h⟩
    · exact ⟨rfl, rfl, rfl, rfl, rfl, rfl, by simp, fun h => h⟩

theorem moveEnemies_cons (c : Canvas) (p : Player) (e : Enemy) (es : List Enemy) (r : Rand) :
    moveEnemies c p (e :: es) r =
      ((moveEnemy c p e r).1 :: (moveEnemies c p es (moveEnemy c p e r).2.2).1,
        (moveEnemy c p e r).2.1 ++ (moveEnemies c p es (moveEnemy c p e r).2.2).2.1,
        (moveEnemies c p es (moveEnemy c p e r).2.2).2.2) := rfl

/-- Every moved enemy comes from an enemy of the list, and every pushed bullet from a
shooter of the list. -/
theorem moveEnemies_spec (c : Canvas) (p : Player) (es : List Enemy) (r : Rand) :
    (∀ e1 ∈ (moveEnemies c p es r).1, ∃ e ∈ es, e1.x = e.x - e.speed ∧ e1.speed = e.speed ∧
      e1.type = e.type ∧ e1.w = e.w ∧ e1.h = e.h ∧ e1.hitPoints = e.hitPoints) ∧
    (∀ b ∈ (moveEnemies c p es r).2.1, ∃ e ∈ es, e.type = .SHOOTER ∧
      |p.x - (e.x - e.speed)| < 250 ∧ e.cooldown - 1 ≤ 0 ∧
      b = { x := e.x - e.speed, y := e.y + e.h / 2, w := 8, h := 8, speed := 4 }) ∧
    (r.unit → (moveEnemies c p es r).2.2.unit) := by
  induction es generalizing r with
  | nil => simp [moveEnemies]
  | cons e es ih =>
    rw [moveEnemies_cons]
    obtain ⟨h1, h2, h3, h4, h5, h6, h7, h8⟩ := moveEnemy_spec c p e r
    obtain ⟨i1, i2, i3⟩ := ih (moveEnemy c p e r).2.2
    refine ⟨?_, ?_, fun h => i3 (h8 h)⟩
    · intro e1 he1
      rcases List.mem_cons.mp he1 with he | he
      · exact ⟨e, List.mem_cons_self _ _, by rw [he]; exact ⟨h1, h2, h3, h4, h5, h6⟩⟩
      · obtain ⟨e0, hm, hrest⟩ := i1 e1 he
        exact ⟨e0, List.mem_cons_of_mem _ hm, hrest⟩
    · intro b hb
      rcases List.mem_append.mp hb with hb | hb
      · exact ⟨e, List.mem_cons_self _ _, h7 b hb⟩
      · obtain ⟨e0, hm, hrest⟩ := i2 b hb
        exact ⟨e0, List.mem_cons_of_mem _ hm, hrest⟩

theorem moveEnemies_length (c : Canvas) (p : Player) (es : List Enemy) (r : Rand) :
    (moveEnemies c p es r).1.length = es.length := by
  induction es generalizing r with
  | nil => rfl
  | cons e es ih => rw [moveEnemies_cons]; simp [ih]

/-- Ticks can be unrolled from the end. -/
theorem ticks_succ (c : Canvas) (n : ℕ) (s : World) (r : Rand) :
    ticks c (n + 1) s r = (ticks c n s r).bind (fun q => update c q.1 q.2) := by
  induction n generalizing s r with
  | zero =>
    simp only [ticks, Option.some_bind]
    cases update c s r with
    | none => rfl
    | some q => rfl
  | succ n ih =>
    rw [ticks]
    cases hu : update c s r with
    | none => simp [ticks, hu]
    | some q =>
      obtain ⟨s1, r1⟩ := q
      simp only []
      rw [ih s1 r1]
      conv_rhs => rw [ticks, hu]

/-! ## The phases in detail -/

/-- The spawn phase: either the counter only advances, or a spawn is attempted, the
counter is reset and the score incremented. -/
theorem spawnStep_cases (c : Canvas) (s : World) (r : Rand) :
    (s.lastSpawn + 1 < s.spawnRate ∧
      (spawnStep c s r).1 = { s with lastSpawn := s.lastSpawn + 1 } ∧ (spawnStep c s r).2 = r) ∨
    (s.spawnRate ≤ s.lastSpawn + 1 ∧ (spawnStep c s r).1.lastSpawn = 0 ∧
      (spawnStep c s r).1.score = s.score + 1 ∧
      (spawnStep c s r).1.enemies =
        (spawnEnemy c { s with lastSpawn := s.lastSpawn + 1 } r).1.enemies) := by
  unfold spawnStep
  simp only []
  split_ifs with h1 h2
  · exact Or.inr ⟨h1, rfl, by simp [spawnEnemy_score], rfl⟩
  · exact Or.inr ⟨h1, rfl, by simp [spawnEnemy_score], rfl⟩
  · exact Or.inl ⟨not_le.mp h1, rfl, rfl⟩

/-- The world after the enemy loop, in terms of the spawn phase and the loop. -/
theorem moveWorld_spec (c : Canvas) (s : World) (last : Platform) (r : Rand) :
    ∃ s0 r0, s0.spawnRate = s.spawnRate ∧ s0.score = s.score ∧ s0.lastSpawn = s.lastSpawn ∧
      s0.enemies = s.enemies ∧ s0.bullets = s.bullets ∧ s0.player = applyGravity c s.player ∧
      (r.unit → r0.unit) ∧
      (moveWorld c s last r).1.enemies =
        (moveEnemies c (applyGravity c s.player) (spawnStep c s0 r0).1.enemies
          (spawnStep c s0 r0).2).1 ∧
      (moveWorld c s last r).1.bullets =
        s.bullets ++ (moveEnemies c (applyGravity c s.player) (spawnStep c s0 r0).1.enemies
          (spawnStep c s0 r0).2).2.1 ∧
      (moveWorld c s last r).1.spawnRate = (spawnStep c s0 r0).1.spawnRate ∧
      (moveWorld c s last r).1.score = (spawnStep c s0 r0).1.score ∧
      (moveWorld c s last r).1.lastSpawn = (spawnStep c s0 r0).1.lastSpawn ∧
      (moveWorld c s last r).2 =
        (moveEnemies c (applyGravity c s.player) (spawnStep c s0 r0).1.enemies
          (spawnStep c s0 r0).2).2.2 := by
  refine ⟨{ s with player := applyGravity c s.player,
                   platforms := (extendPlatforms c (s.platforms.map scrollPlatform) last r).1,
                   lastPlatformEnd :=
                     (extendPlatforms c (s.platforms.map scrollPlatform) last r).2.1 },
    (extendPlatforms c (s.platforms.map scrollPlatform) last r).2.2, rfl, rfl, rfl, rfl, rfl, rfl,
    extendPlatforms_unit c _ last r, ?_, ?_, ?_, ?_, ?_, ?_⟩ <;>
  simp [moveWorld, spawnStep_player, spawnStep_bullets]

theorem beforeCollision_counters (c : Canvas) (s : World) (last : Platform) (r : Rand) :
    (beforeCollision c s last r).1.spawnRate = (moveWorld c s last r).1.spawnRate ∧
    (beforeCollision c s last r).1.score = (moveWorld c s last r).1.score ∧
    (beforeCollision c s last r).1.lastSpawn = (moveWorld c s last r).1.lastSpawn ∧
    (beforeCollision c s last r).2 = (moveWorld c s last r).2 := by
  simp [beforeCollision]

/-- With neither timer set, the collision phase leaves the player as it is. -/
theorem afterCollision_player_idle (s : World) (h1 : s.player.invincibleTimer = 0)
    (h2 : s.player.rollTimer = 0) : (afterCollision s).player = s.player := by
  simp [afterCollision, collide, rollTick, h1, h2]

/-- With no invincibility left, the collision phase sets `gameOver` iff it was set or
something strictly overlaps the player. -/
theorem afterCollision_gameOver (s : World) (h1 : s.player.invincibleTimer ≤ 0) :
    (afterCollision s).gameOver = true ↔
      s.gameOver = true ∨ (∃ e ∈ s.enemies, Overlap s.player e.x e.y e.w e.h) ∨
        (∃ b ∈ s.bullets, Overlap s.player b.x b.y b.w b.h) := by
  rw [← collide_flag s.player s.enemies s.bullets s.gameOver h1]
  simp [afterCollision]

theorem getSafeSpawnPosition_nil (c : Canvas) (s : World) (h : s.enemies = []) :
    getSafeSpawnPosition c s = max c.width (s.player.x + 300) := by
  simp [getSafeSpawnPosition, h]

/-! ## The idle scenario -/

theorem IdleInv_initial (c : Canvas) : IdleInv 0 (initialWorld c) := by
  refine ⟨rfl, by simp [initialWorld], rfl, by norm_num [initialWorld, scale], rfl, rfl, rfl,
    Or.inl ⟨by decide, rfl, rfl, rfl⟩, ?_, ?_⟩
  · intro e he
    simp [initialWorld] at he
  · intro b hb
    simp [initialWorld] at hb

/-- The spawn phase of the idle scenario: the counters of tick `k + 1`, and every enemy
in the list, the fresh one included, is still at its bound of tick `k`. -/
theorem idle_spawn (c : Canvas) (k : ℕ) (s0 : World) (r0 : Rand) (hk : k < 200)
    (hr : r0.unit) (hx : s0.player.x = 100) (hsr : s0.spawnRate = 120)
    (hcnt : (k < 120 ∧ s0.score = 0 ∧ s0.lastSpawn = k ∧ s0.enemies = []) ∨
      (120 ≤ k ∧ s0.score = 1 ∧ s0.lastSpawn = (k : ℤ) - 120))
    (hen : ∀ e ∈ s0.enemies, e.speed ≤ 3 ∧ 400 - 3 * ((k : ℚ) - 119) ≤ e.x ∧
      (e.type = .SHOOTER → e.speed = 3 / 2 ∧ 400 - 3 / 2 * ((k : ℚ) - 119) ≤ e.x)) :
    (spawnStep c s0 r0).1.spawnRate = 120 ∧
    ((k + 1 < 120 ∧ (spawnStep c s0 r0).1.score = 0 ∧
        (spawnStep c s0 r0).1.lastSpawn = ((k + 1 : ℕ) : ℤ) ∧
        (spawnStep c s0 r0).1.enemies = []) ∨
      (120 ≤ k + 1 ∧ (spawnStep c s0 r0).1.score = 1 ∧
        (spawnStep c s0 r0).1.lastSpawn = ((k + 1 : ℕ) : ℤ) - 120)) ∧
    (∀ e ∈ (spawnStep c s0 r0).1.enemies, e.speed ≤ 3 ∧ 400 - 3 * ((k : ℚ) - 119) ≤ e.x ∧
      (e.type = .SHOOTER → e.speed = 3 / 2 ∧ 400 - 3 / 2 * ((k : ℚ) - 119) ≤ e.x)) := by
  rcases spawnStep_cases c s0 r0 with ⟨h1, h2, _⟩ | ⟨h1, h2, h3, h4⟩
  · rw [h2]
    refine ⟨hsr, ?_, hen⟩
    rw [hsr] at h1
    rcases hcnt with ⟨_, c2, c3, c4⟩ | ⟨c1, c2, c3⟩
    · left
      rw [c3] at h1
      refine ⟨by omega, c2, ?_, c4⟩
      simp only [c3]
      push_cast
      rfl
    · right
      refine ⟨by omega, c2, ?_⟩
      simp only [c3]
      push_cast
      ring
  · rw [hsr] at h1
    have hk119 : k = 119 := by
      rcases hcnt with ⟨c1, _, c3, _⟩ | ⟨c1, _, c3⟩
      · rw [c3] at h1
        omega
      · rw [c3] at h1
        omega
    have hnil : s0.enemies = [] := by
      rcases hcnt with ⟨_, _, _, c4⟩ | ⟨c1, _, _⟩
      · exact c4
      · omega
    have hsc : s0.score = 0 := by
      rcases hcnt with ⟨_, c2, _, _⟩ | ⟨c1, _, _⟩
      · exact c2
      · omega
    have hscore : (spawnStep c s0 r0).1.score = 1 := by
      rw [h3, hsc]
      rfl
    refine ⟨?_, Or.inr ⟨by omega, hscore, ?_⟩, ?_⟩
    · rcases spawnStep_spawnRate c s0 r0 with ⟨g1, _⟩ | ⟨_, _, _, g4⟩
      · rw [g1, hsr]
      · rw [hscore] at g4
        exact absurd g4 (by decide)
    · rw [h2, hk119]
      rfl
    · intro e he
      rw [h4] at he
      rcases spawnEnemy_cases c { s0 with lastSpawn := s0.lastSpawn + 1 } r0 with
        ⟨_, g2⟩ | ⟨_, e0, g2, gx, _, _, _, gt⟩
      · rw [g2] at he
        simp [hnil] at he
      · rw [g2] at he
        simp only [hnil, List.nil_append, List.mem_singleton] at he
        rw [he]
        have hpos : (400 : ℚ) ≤ e0.x := by
          rw [gx, getSafeSpawnPosition_nil c { s0 with lastSpawn := s0.lastSpawn + 1 } hnil]
          simp only [hx]
          exact le_trans (by norm_num) (le_max_right _ _)
        have hkq : (k : ℚ) = 119 := by
          rw [hk119]
          norm_num
        rw [hkq]
        rcases gt with ⟨t1, t2, _⟩ | ⟨t1, t2, _⟩ | ⟨t1, t2, _⟩
        · refine ⟨?_, by linarith, ?_⟩
          · rw [t2]
            linarith [(hr 1).2]
          · intro ht
            rw [t1] at ht
            exact absurd ht (by decide)
        · refine ⟨by rw [t2]; norm_num, by linarith, fun _ => ⟨t2, by linarith⟩⟩
        · refine ⟨by rw [t2]; norm_num, by linarith, ?_⟩
          intro ht
          rw [t1] at ht
          exact absurd ht (by decide)

/-- One tick of the idle scenario: the tick returns and takes the invariant of tick `k`
to the one of tick `k + 1`, for `k < 200`. -/
theorem idle_step (c : Canvas) (k : ℕ) (s : World) (r : Rand) (hk : k < 200)
    (hinv : IdleInv k s) (hr : r.unit) :
    ∃ s1 r1, update c s r = some (s1, r1) ∧ IdleInv (k + 1) s1 ∧ r1.unit := by
  obtain ⟨hg, hp, hx, hw, hi, hro, hsr, hcnt, hen, hbu⟩ := hinv
  obtain ⟨last, _, hu⟩ := update_running c s r hg hp
  obtain ⟨s0, r0, e1, e2, e3, e4, e5, e6, e7, m1, m2, m3, m4, m5, m6⟩ :=
    moveWorld_spec c s last r
  obtain ⟨b1, b2, b3, b4⟩ := beforeCollision_counters c s last r
  obtain ⟨a1, a2, a3, a4, a5, a6, _⟩ := afterCollision_fields (beforeCollision c s last r).1
  obtain ⟨g1, g2, _, g4, g5⟩ := applyGravity_box c s.player
  have hkq : (k : ℚ) ≤ 199 := by exact_mod_cast Nat.le_of_lt_succ hk
  have hk0 : (0 : ℚ) ≤ (k : ℚ) := Nat.cast_nonneg k
  have hx0 : s0.player.x = 100 := by rw [e6, g1, hx]
  obtain ⟨S1, S2, S3⟩ := idle_spawn c k s0 r0 hk (e7 hr) hx0 (by rw [e1, hsr])
    (by rw [e2, e3, e4]; exact hcnt) (by rw [e4]; exact hen)
  obtain ⟨M1, M2, M3⟩ := moveEnemies_spec c (applyGravity c s.player)
    (spawnStep c s0 r0).1.enemies (spawnStep c s0 r0).2
  -- the enemies after the loop
  have hE : ∀ e ∈ (moveWorld c s last r).1.enemies, e.speed ≤ 3 ∧
      400 - 3 * (((k + 1 : ℕ) : ℚ) - 119) ≤ e.x ∧
      (e.type = .SHOOTER → e.speed = 3 / 2 ∧ 400 - 3 / 2 * (((k + 1 : ℕ) : ℚ) - 119) ≤ e.x) := by
    intro e he
    rw [m1] at he
    obtain ⟨e0, he0, q1, q2, q3, _⟩ := M1 e he
    obtain ⟨t1, t2, t3⟩ := S3 e0 he0
    push_cast
    refine ⟨by rw [q2]; exact t1, by rw [q1]; linarith, ?_⟩
    intro ht
    rw [q3] at ht
    obtain ⟨t4, t5⟩ := t3 ht
    exact ⟨by rw [q2]; exact t4, by rw [q1, t4]; linarith⟩
  -- the bullets before their move
  have hB : ∀ b ∈ (moveWorld c s last r).1.bullets, b.speed = 4 ∧
      955 - 4 * ((k + 1 : ℕ) : ℚ) ≤ b.x - b.speed := by
    intro b hb
    rw [m2] at hb
    push_cast
    rcases List.mem_append.mp hb with hb | hb
    · obtain ⟨t1, t2⟩ := hbu b hb
      exact ⟨t1, by rw [t1]; linarith⟩
    · obtain ⟨e0, he0, q1, q2, _, q4⟩ := M2 b hb
      obtain ⟨_, _, t3⟩ := S3 e0 he0
      obtain ⟨t4, t5⟩ := t3 q1
      rw [g1, hx, t4] at q2
      have q5 := (abs_lt.mp q2).1
      rw [q4]
      refine ⟨rfl, ?_⟩
      simp only [t4]
      linarith
  have hpl : (beforeCollision c s last r).1.player = applyGravity c s.player :=
    beforeCollision_player c s last r
  have hroll : (applyGravity c s.player).rollTimer = 0 := by rw [g4, hro]
  have hinv0 : (applyGravity c s.player).invincibleTimer = 0 := by rw [g5, hi]
  have hEn : ∀ e ∈ (beforeCollision c s last r).1.enemies,
      e ∈ (moveWorld c s last r).1.enemies := by
    intro e he
    rw [beforeCollision_enemies] at he
    have := (List.mem_filter.mp he).1
    simpa [rollAttack, hroll] using this
  have hBu : ∀ b ∈ (beforeCollision c s last r).1.bullets, b.speed = 4 ∧
      955 - 4 * ((k + 1 : ℕ) : ℚ) ≤ b.x := by
    intro b hb
    rw [beforeCollision_bullets] at hb
    obtain ⟨b0, hb0, hb1⟩ := List.mem_map.mp (List.mem_filter.mp hb).1
    obtain ⟨t1, t2⟩ := hB b0 hb0
    rw [← hb1]
    exact ⟨t1, t2⟩
  refine ⟨_, _, hu, ⟨?_, ?_, ?_, ?_, ?_, ?_, ?_, ?_, ?_, ?_⟩, ?_⟩
  · -- no collision
    rw [Bool.eq_false_iff]
    intro h
    rcases (afterCollision_gameOver _ (by rw [hpl, hinv0])).mp h with h | ⟨e, he, ho⟩ |
      ⟨b, hb, ho⟩
    · rw [beforeCollision_gameOver, hg] at h
      exact absurd h (by decide)
    · obtain ⟨_, t2, _⟩ := hE e (hEn e he)
      have := ho.2.1
      rw [hpl, g1, g2, hx, hw] at this
      push_cast at t2
      linarith
    · obtain ⟨_, t2⟩ := hBu b hb
      have := ho.2.1
      rw [hpl, g1, g2, hx, hw] at this
      push_cast at t2
      linarith
  · rw [a1, beforeCollision_platforms]
    exact extendPlatforms_ne c _ last r (by simpa using hp)
  · rw [afterCollision_player_idle _ (by rw [hpl, hinv0]) (by rw [hpl, hroll]), hpl, g1, hx]
  · rw [afterCollision_player_idle _ (by rw [hpl, hinv0]) (by rw [hpl, hroll]), hpl, g2, hw]
  · rw [afterCollision_player_idle _ (by rw [hpl, hinv0]) (by rw [hpl, hroll]), hpl, hinv0]
  · rw [afterCollision_player_idle _ (by rw [hpl, hinv0]) (by rw [hpl, hroll]), hpl, hroll]
  · rw [a5, b1, m3, S1]
  · rw [a4, a6, a2, b2, b3, m4, m5]
    rcases S2 with ⟨c1, c2, c3, c4⟩ | ⟨c1, c2, c3⟩
    · refine Or.inl ⟨c1, c2, c3, ?_⟩
      rw [beforeCollision_enemies, m1, c4]
      simp [moveEnemies, rollAttack]
    · exact Or.inr ⟨c1, c2, c3⟩
  · intro e he
    rw [a2] at he
    exact hE e (hEn e he)
  · intro b hb
    rw [a3] at hb
    exact hBu b hb
  · rw [b4, m6]
    exact M3 (spawnStep_unit c s0 r0 (e7 hr))

/-- The idle scenario after `k ≤ 200` ticks: the ticks return and the invariant holds. -/
theorem idle_ticks (c : Canvas) (r : Rand) (hr : r.unit) (k : ℕ) (hk : k ≤ 200) :
    ∃ s r1, ticks c k (initialWorld c) r = some (s, r1) ∧ IdleInv k s ∧ r1.unit := by
  induction k with
  | zero => exact ⟨initialWorld c, r, rfl, IdleInv_initial c, hr⟩
  | succ k ih =>
    obtain ⟨s, r1, ht, hinv, hr1⟩ := ih (Nat.le_of_succ_le hk)
    obtain ⟨s1, r2, hu, hinv1, hr2⟩ := idle_step c k s r1 (Nat.lt_of_succ_le hk) hinv hr1
    refine ⟨s1, r2, ?_, hinv1, hr2⟩
    rw [ticks_succ, ht]
    exact hu

/-- C9. From the initial world, for every canvas size and every stream of draws in
`[0, 1)`, with no primary action: each of the first 200 ticks returns with `gameOver`
false; `score` is 0 after each of ticks 1 to 119 and 1 after each of ticks 120 to 200. -/
theorem idle_scenario (c : Canvas) (r : Rand) (hr : r.unit) (k : ℕ) (hk : k ≤ 200) :
    ∃ s r1, ticks c k (initialWorld c) r = some (s, r1) ∧ s.gameOver = false ∧
      (k < 120 → s.score = 0) ∧ (120 ≤ k → s.score = 1) := by
  obtain ⟨s, r1, ht, hinv, _⟩ := idle_ticks c r hr k hk
  obtain ⟨hg, _, _, _, _, _, _, hcnt, _, _⟩ := hinv
  refine ⟨s, r1, ht, hg, ?_, ?_⟩
  · intro h
    rcases hcnt with ⟨_, c2, _, _⟩ | ⟨c1, _, _⟩
    · exact c2
    · omega
  · intro h
    rcases hcnt with ⟨c1, _, _, _⟩ | ⟨_, c2, _⟩
    · omega
    · exact c2

/-- Witness of C9 on an 800 by 400 canvas, all draws 0, after 200 ticks. -/
theorem idle_scenario_witness :
    ((constRand 0).unit ∧ 200 ≤ 200) ∧
    ∃ s r1, ticks canvas0 200 (initialWorld canvas0) (constRand 0) = some (s, r1) ∧
      s.gameOver = false ∧ (200 < 120 → s.score = 0) ∧ (120 ≤ 200 → s.score = 1) :=
  ⟨⟨fun _ => ⟨le_refl 0, zero_lt_one⟩, le_refl 200⟩,
    idle_scenario canvas0 (constRand 0) (fun _ => ⟨le_refl 0, zero_lt_one⟩) 200 (le_refl 200)⟩

/-- The scenario of C2 and C3 run on the code: a walker whose left edge ends the tick
exactly on the player's right edge does not end the game, while one that overlaps the
player does, unless the player is invincible. -/
theorem edge_touch_is_safe :
    (update canvas0 (worldWithWalker 120) (constRand 0)).map
        (fun q => (q.1.gameOver, q.1.player.x + q.1.player.w, q.1.enemies.map (fun e => e.x))) =
      some (false, 118, [118]) ∧
    (update canvas0 (worldWithWalker 119) (constRand 0)).map
        (fun q => (q.1.gameOver, q.1.player.x + q.1.player.w, q.1.enemies.map (fun e => e.x))) =
      some (true, 118, [117]) ∧
    (update canvas0 (shieldedWorld 119) (constRand 0)).map
        (fun q => (q.1.gameOver, q.1.player.x + q.1.player.w, q.1.enemies.map (fun e => e.x))) =
      some (false, 118, [117]) := by
  decide!

/-! ## Terrain coverage -/

/-- The terrain after 401 ticks from the initial world on an 800 by 400 canvas, every draw
being 7/10 (segments of width 270, shooters only): the game still runs and the two
segments span `[-802, 798]` and `[800, 1070]`. -/
theorem terrain_after_401 :
    (ticks canvas0 401 (initialWorld canvas0) (constRand (7 / 10))).map
        (fun q => (q.1.gameOver, q.1.platforms.map (fun p => (p.x, p.x + p.w)))) =
      some (false, [(-802, 798), (800, 1070)]) := by
  decide!

/-- C1 evaluated on the code: after 401 running ticks on an 800 by 400 canvas the point
799 of `[0, canvas.width]` lies in the span of no terrain segment. -/
theorem terrain_gap :
    ∃ s r1, ticks canvas0 401 (initialWorld canvas0) (constRand (7 / 10)) = some (s, r1) ∧
      s.gameOver = false ∧ (0 : ℚ) ≤ 799 ∧ (799 : ℚ) ≤ canvas0.width ∧
      ∀ p ∈ s.platforms, ¬ (p.x ≤ 799 ∧ 799 ≤ p.x + p.w) := by
  obtain ⟨q, hq, hv⟩ := option_map_some _ _ _ terrain_after_401
  obtain ⟨s, r1⟩ := q
  simp only [Prod.mk.injEq] at hv
  obtain ⟨hg, hpl⟩ := hv
  refine ⟨s, r1, hq, hg, by norm_num, by norm_num [canvas0], ?_⟩
  intro p hp
  have hmem : (p.x, p.x + p.w) ∈ s.platforms.map (fun p => (p.x, p.x + p.w)) :=
    List.mem_map.mpr ⟨p, hp, rfl⟩
  rw [hpl] at hmem
  simp only [List.mem_cons, Prod.mk.injEq, List.mem_singleton, List.not_mem_nil, or_false] at hmem
  rcases hmem with ⟨h1, h2⟩ | ⟨h1, h2⟩
  · rw [h2]
    intro h
    linarith [h.2]
  · rw [h1]
    intro h
    linarith [h.1]

/-! ## Restart, spawn position and ground -/

/-- C11 evaluated on the code: a primary action in game over is `restartGame`, and the
world it builds is the start-up world except that `player.onGround` is `true` where the
start-up world has `false`; the two worlds are therefore different. -/
theorem restart_differs (c : Canvas) (s : World) :
    touchstart c { s with gameOver := true } = restartGame c { s with gameOver := true } ∧
    restartGame c s =
      { initialWorld c with player := { (initialWorld c).player with onGround := true } } ∧
    (restartGame c s).player.onGround = true ∧ (initialWorld c).player.onGround = false ∧
    restartGame c s ≠ initialWorld c := by
  refine ⟨by simp [touchstart], rfl, rfl, rfl, ?_⟩
  intro h
  have h1 : (restartGame c s).player.onGround = (initialWorld c).player.onGround := by rw [h]
  simp [restartGame, initialWorld] at h1

theorem getSafeSpawnPosition_eq (c : Canvas) (s : World) :
    getSafeSpawnPosition c s = spawnCandidate c s := by
  unfold getSafeSpawnPosition spawnCandidate
  cases s.enemies.getLast? with
  | none => rfl
  | some l => simp only [max_assoc]

/-- C13. With `x0` the largest of `canvas.width`, the last enemy's right edge plus 150
(if any) and `player.x + 300`: when `x0 ≤ canvas.width + 300`, `spawnEnemy` appends exactly
one enemy, at `x = x0`, so that `canvas.width ≤ x ≤ canvas.width + 300`; when
`x0 > canvas.width + 300` it leaves the world, and so `enemies`, unchanged. -/
theorem spawn_skip (c : Canvas) (s : World) (r : Rand) :
    (spawnCandidate c s ≤ c.width + 300 ∧
      ∃ e : Enemy, (spawnEnemy c s r).1 = { s with enemies := s.enemies ++ [e] } ∧
        e.x = spawnCandidate c s ∧ c.width ≤ e.x ∧ e.x ≤ c.width + 300) ∨
    (spawnCandidate c s > c.width + 300 ∧ (spawnEnemy c s r).1 = s) := by
  rw [← getSafeSpawnPosition_eq]
  rcases spawnEnemy_cases c s r with ⟨h1, h2⟩ | ⟨h1, e, h2, hx, _⟩
  · exact Or.inr ⟨h1, h2⟩
  · refine Or.inl ⟨h1, e, h2, hx, ?_, ?_⟩
    · rw [hx]
      exact (getSafeSpawnPosition_ge c s).1
    · rw [hx]
      exact h1

theorem applyGravity_ground (c : Canvas) (p : Player) :
    (applyGravity c p).h = p.h ∧
    ((p.y + (p.ySpeed + gravity) + p.h ≥ c.height - groundHeight ∧
        (applyGravity c p).y = c.height - groundHeight - p.h ∧ (applyGravity c p).ySpeed = 0 ∧
        (applyGravity c p).onGround = true ∧ (applyGravity c p).jumpsRemaining = 2) ∨
     (p.y + (p.ySpeed + gravity) + p.h < c.height - groundHeight ∧
        (applyGravity c p).y = p.y + (p.ySpeed + gravity) ∧
        (applyGravity c p).ySpeed = p.ySpeed + gravity ∧
        (applyGravity c p).onGround = false ∧
        (applyGravity c p).jumpsRemaining = p.jumpsRemaining)) := by
  unfold applyGravity
  simp only []
  split_ifs with h
  · exact ⟨rfl, Or.inl ⟨h, rfl, rfl, rfl, rfl⟩⟩
  · exact ⟨rfl, Or.inr ⟨not_le.mp h, rfl, rfl, rfl, rfl⟩⟩

/-- The collision phase changes neither the player's box nor its speed, grounded flag
and jumps. -/
theorem afterCollision_box (s : World) :
    (afterCollision s).player.x = s.player.x ∧ (afterCollision s).player.y = s.player.y ∧
    (afterCollision s).player.w = s.player.w ∧ (afterCollision s).player.h = s.player.h ∧
    (afterCollision s).player.ySpeed = s.player.ySpeed ∧
    (afterCollision s).player.onGround = s.player.onGround ∧
    (afterCollision s).player.jumpsRemaining = s.player.jumpsRemaining := by
  obtain ⟨r1, r2, r3, r4, _, r6, r7, r8⟩ :=
    rollTick_box (collide s.player s.enemies s.bullets s.gameOver).2
  obtain ⟨c1, c2, c3, c4, _, c6, c7, c8⟩ := collide_box s.player s.enemies s.bullets s.gameOver
  simp [afterCollision, r1, r2, r3, r4, r6, r7, r8, c1, c2, c3, c4, c6, c7, c8]

/-- The player at the end of a running tick has the position, speed, grounded flag and
jumps that gravity and the ground collision gave it. -/
theorem update_player (c : Canvas) (s : World) (last : Platform) (r : Rand) :
    (afterCollision (beforeCollision c s last r).1).player.x = (applyGravity c s.player).x ∧
    (afterCollision (beforeCollision c s last r).1).player.y = (applyGravity c s.player).y ∧
    (afterCollision (beforeCollision c s last r).1).player.w = (applyGravity c s.player).w ∧
    (afterCollision (beforeCollision c s last r).1).player.h = (applyGravity c s.player).h ∧
    (afterCollision (beforeCollision c s last r).1).player.ySpeed =
      (applyGravity c s.player).ySpeed ∧
    (afterCollision (beforeCollision c s last r).1).player.onGround =
      (applyGravity c s.player).onGround ∧
    (afterCollision (beforeCollision c s last r).1).player.jumpsRemaining =
      (applyGravity c s.player).jumpsRemaining := by
  have h := afterCollision_box (beforeCollision c s last r).1
  rw [beforeCollision_player] at h
  exact h

/-- C16. At the end of a running tick the player's bottom edge is not below ground level;
if it reached or passed ground level in the tick the player is clamped onto the ground with
`ySpeed = 0` and `onGround` set, otherwise `onGround` is cleared and `jumpsRemaining` is
that of the start of the tick. -/
theorem never_below_ground (c : Canvas) (s : World) (r : Rand) (hrun : s.gameOver = false)
    (hp : s.platforms ≠ []) :
    ∃ s1 r1, update c s r = some (s1, r1) ∧
      s1.player.y + s1.player.h ≤ c.height - groundHeight ∧
      ((s.player.y + (s.player.ySpeed + gravity) + s.player.h ≥ c.height - groundHeight ∧
          s1.player.y = c.height - groundHeight - s1.player.h ∧ s1.player.ySpeed = 0 ∧
          s1.player.onGround = true) ∨
        (s.player.y + (s.player.ySpeed + gravity) + s.player.h < c.height - groundHeight ∧
          s1.player.onGround = false ∧
          s1.player.jumpsRemaining = s.player.jumpsRemaining)) := by
  obtain ⟨last, _, hu⟩ := update_running c s r hrun hp
  refine ⟨_, _, hu, ?_⟩
  obtain ⟨_, u2, _, u4, u5, u6, u7⟩ := update_player c s last r
  rw [u2, u4, u5, u6, u7]
  obtain ⟨g0, g | g⟩ := applyGravity_ground c s.player
  · obtain ⟨g1, g2, g3, g4, _⟩ := g
    refine ⟨?_, Or.inl ⟨g1, by rw [g2, g0], g3, g4⟩⟩
    rw [g2, g0]
    linarith
  · obtain ⟨g1, g2, _, g4, g5⟩ := g
    refine ⟨?_, Or.inr ⟨g1, g4, g5⟩⟩
    rw [g2, g0]
    linarith

/-! ## Spawning and score -/

/-- The enemy loop of `moveWorld` runs on the world `afterSpawn` returns. -/
theorem moveWorld_afterSpawn (c : Canvas) (s : World) (last : Platform) (r : Rand) :
    (moveWorld c s last r).1.enemies =
      (moveEnemies c (applyGravity c s.player) (afterSpawn c s last r).1.enemies
        (afterSpawn c s last r).2).1 ∧
    (moveWorld c s last r).1.bullets =
      s.bullets ++ (moveEnemies c (applyGravity c s.player) (afterSpawn c s last r).1.enemies
        (afterSpawn c s last r).2).2.1 ∧
    (moveWorld c s last r).1.score = (afterSpawn c s last r).1.score ∧
    (moveWorld c s last r).1.lastSpawn = (afterSpawn c s last r).1.lastSpawn ∧
    (moveWorld c s last r).1.spawnRate = (afterSpawn c s last r).1.spawnRate ∧
    (moveWorld c s last r).2 =
      (moveEnemies c (applyGravity c s.player) (afterSpawn c s last r).1.enemies
        (afterSpawn c s last r).2).2.2 := by
  simp [moveWorld, afterSpawn, spawnStep_player, spawnStep_bullets]

/-- The spawn position only depends on the enemies and on the player's abscissa. -/
theorem getSafeSpawnPosition_congr (c : Canvas) (s t : World) (he : s.enemies = t.enemies)
    (hx : s.player.x = t.player.x) : getSafeSpawnPosition c s = getSafeSpawnPosition c t := by
  simp [getSafeSpawnPosition, he, hx]

/-- The spawn phase runs on a world that has the enemies, counters and player abscissa
of the start of the tick. -/
theorem afterSpawn_eq (c : Canvas) (s : World) (last : Platform) (r : Rand) :
    ∃ s0 r0, s0.enemies = s.enemies ∧ s0.score = s.score ∧ s0.lastSpawn = s.lastSpawn ∧
      s0.spawnRate = s.spawnRate ∧ s0.player.x = s.player.x ∧
      afterSpawn c s last r = spawnStep c s0 r0 := by
  refine ⟨{ s with player := applyGravity c s.player,
                   platforms := (extendPlatforms c (s.platforms.map scrollPlatform) last r).1,
                   lastPlatformEnd :=
                     (extendPlatforms c (s.platforms.map scrollPlatform) last r).2.1 },
    (extendPlatforms c (s.platforms.map scrollPlatform) last r).2.2, rfl, rfl, rfl, rfl,
    (applyGravity_box c s.player).1, rfl⟩

/-- The spawn phase of a running tick, in terms of the world at the start of the tick:
either no attempt is due and only the counter advances, or an attempt is made, the
counter is reset and the score incremented, whether the enemy is appended or the attempt
is skipped for lack of room. -/
theorem afterSpawn_cases (c : Canvas) (s : World) (last : Platform) (r : Rand) :
    (s.lastSpawn + 1 < s.spawnRate ∧ (afterSpawn c s last r).1.enemies = s.enemies ∧
      (afterSpawn c s last r).1.score = s.score ∧
      (afterSpawn c s last r).1.lastSpawn = s.lastSpawn + 1) ∨
    (s.spawnRate ≤ s.lastSpawn + 1 ∧ (afterSpawn c s last r).1.score = s.score + 1 ∧
      (afterSpawn c s last r).1.lastSpawn = 0 ∧
      ((getSafeSpawnPosition c s ≤ c.width + 300 ∧
          ∃ e : Enemy, (afterSpawn c s last r).1.enemies = s.enemies ++ [e] ∧
            e.x = getSafeSpawnPosition c s) ∨
        (getSafeSpawnPosition c s > c.width + 300 ∧
          (afterSpawn c s last r).1.enemies = s.enemies))) := by
  obtain ⟨s0, r0, e1, e2, e3, e4, e5, hA⟩ := afterSpawn_eq c s last r
  rw [hA]
  have hpos : getSafeSpawnPosition c { s0 with lastSpawn := s0.lastSpawn + 1 } =
      getSafeSpawnPosition c s := getSafeSpawnPosition_congr c _ s e1 e5
  rcases spawnStep_cases c s0 r0 with ⟨h1, h2, _⟩ | ⟨h1, h2, h3, h4⟩
  · left
    rw [h2]
    exact ⟨by rw [← e3, ← e4]; exact h1, e1, e2, by simp [e3]⟩
  · right
    refine ⟨by rw [← e3, ← e4]; exact h1, by rw [h3, e2], h2, ?_⟩
    rw [h4]
    rcases spawnEnemy_cases c { s0 with lastSpawn := s0.lastSpawn + 1 } r0 with
      ⟨g1, g2⟩ | ⟨g1, e, g2, gx, _⟩
    · right
      rw [hpos] at g1
      exact ⟨g1, by rw [g2]; exact e1⟩
    · left
      rw [hpos] at g1 gx
      exact ⟨g1, e, by rw [g2]; simp [e1], gx⟩

/-- The counters at the end of a running tick are those of the spawn phase. -/
theorem update_counters (c : Canvas) (s : World) (last : Platform) (r : Rand) :
    (afterCollision (beforeCollision c s last r).1).score = (afterSpawn c s last r).1.score ∧
    (afterCollision (beforeCollision c s last r).1).lastSpawn =
      (afterSpawn c s last r).1.lastSpawn ∧
    (afterCollision (beforeCollision c s last r).1).spawnRate =
      (afterSpawn c s last r).1.spawnRate := by
  obtain ⟨_, _, _, a4, a5, a6, _⟩ := afterCollision_fields (beforeCollision c s last r).1
  obtain ⟨b1, b2, b3, _⟩ := beforeCollision_counters c s last r
  obtain ⟨_, _, m3, m4, m5, _⟩ := moveWorld_afterSpawn c s last r
  exact ⟨by rw [a4, b2, m3], by rw [a6, b3, m4], by rw [a5, b1, m5]⟩

/-- C12 (amended). In a running tick, `score` increases by exactly 1 and `lastSpawn` is
reset to 0 exactly when a spawn attempt is due (`lastSpawn + 1 ≥ spawnRate`), and only then
can an enemy be appended; the attempt either appends one enemy or is skipped because the
spawn position exceeds `canvas.width + 300`, and `score` increases in both cases.  In a
tick with no attempt due no enemy is appended, `score` is unchanged and `lastSpawn`
advances by 1. -/
theorem score_counts_attempts (c : Canvas) (s : World) (r : Rand) (hrun : s.gameOver = false)
    (hp : s.platforms ≠ []) :
    ∃ last s1 r1, (s.platforms.map scrollPlatform).getLast? = some last ∧
      update c s r = some (s1, r1) ∧
      ((s.lastSpawn + 1 < s.spawnRate ∧ (afterSpawn c s last r).1.enemies = s.enemies ∧
          s1.score = s.score ∧ s1.lastSpawn = s.lastSpawn + 1) ∨
        (s.spawnRate ≤ s.lastSpawn + 1 ∧ s1.score = s.score + 1 ∧ s1.lastSpawn = 0 ∧
          ((getSafeSpawnPosition c s ≤ c.width + 300 ∧
              ∃ e : Enemy, (afterSpawn c s last r).1.enemies = s.enemies ++ [e] ∧
                e.x = getSafeSpawnPosition c s) ∨
            (getSafeSpawnPosition c s > c.width + 300 ∧
              (afterSpawn c s last r).1.enemies = s.enemies)))) := by
  obtain ⟨last, hl, hu⟩ := update_running c s r hrun hp
  refine ⟨last, _, _, hl, hu, ?_⟩
  obtain ⟨u1, u2, _⟩ := update_counters c s last r
  rw [u1, u2]
  exact afterSpawn_cases c s last r

/-- The skipped spawn run on the code.  In `backedUpWorld` the attempt is due and the
spawn position 1168 exceeds 1100: the tick appends no enemy and yet takes `score` from 0
to 1 and `lastSpawn` to 0.  On a canvas 90 wide the same happens at tick 120 from the
initial world. -/
theorem skipped_spawn_scores :
    (backedUpWorld.score, backedUpWorld.lastSpawn, backedUpWorld.spawnRate,
        backedUpWorld.enemies.length, getSafeSpawnPosition canvas0 backedUpWorld) =
      (0, 119, 120, 1, 1168) ∧
    (update canvas0 backedUpWorld (constRand 0)).map
        (fun q => (q.1.score, q.1.lastSpawn, q.1.enemies.length)) = some (1, 0, 1) ∧
    (ticks { width := 90, height := 60 } 119 (initialWorld { width := 90, height := 60 })
        (constRand 0)).map (fun q => (q.1.gameOver, q.1.score, q.1.enemies.length)) =
      some (false, 0, 0) ∧
    (ticks { width := 90, height := 60 } 120 (initialWorld { width := 90, height := 60 })
        (constRand 0)).map (fun q => (q.1.gameOver, q.1.score, q.1.enemies.length)) =
      some (false, 1, 0) := by
  decide!

/-- C12 as stated fails: in `backedUpWorld` the tick appends no enemy in its spawn phase,
the attempt being skipped, and `score` still goes from 0 to 1. -/
theorem skipped_spawn_counts :
    ¬ ∀ (c : Canvas) (s : World) (r : Rand) (last : Platform) (s1 : World) (r1 : Rand),
        s.gameOver = false → (s.platforms.map scrollPlatform).getLast? = some last →
        update c s r = some (s1, r1) → (afterSpawn c s last r).1.enemies = s.enemies →
        s1.score = s.score := by
  intro h
  have hp : backedUpWorld.platforms ≠ [] := by decide
  obtain ⟨last, hl, hu⟩ := update_running canvas0 backedUpWorld (constRand 0) rfl hp
  obtain ⟨u1, _, _⟩ := update_counters canvas0 backedUpWorld last (constRand 0)
  have hcase := afterSpawn_cases canvas0 backedUpWorld last (constRand 0)
  rw [← u1] at hcase
  have hdue : ¬ (backedUpWorld.lastSpawn + 1 < backedUpWorld.spawnRate) := by decide
  have hpos : ¬ (getSafeSpawnPosition canvas0 backedUpWorld ≤ canvas0.width + 300) := by
    decide!
  rcases hcase with ⟨h1, _⟩ | ⟨_, h2, _, h4⟩
  · exact hdue h1
  · rcases h4 with ⟨h5, _⟩ | ⟨_, h6⟩
    · exact hpos h5
    · have := h canvas0 backedUpWorld (constRand 0) last _ _ rfl hl hu h6
      rw [this] at h2
      simp at h2

/-! ## Removal and roll damage -/

/-- The enemy loop maps the list elementwise: each moved enemy is the result of the
callback on the enemy at the same place, for the random stream the loop has reached. -/
theorem moveEnemies_forall2 (c : Canvas) (p : Player) (es : List Enemy) (r : Rand) :
    List.Forall₂ (fun e e1 => ∃ r0 : Rand, (r.unit → r0.unit) ∧ e1 = (moveEnemy c p e r0).1)
      es (moveEnemies c p es r).1 := by
  induction es generalizing r with
  | nil => exact List.Forall₂.nil
  | cons e es ih =>
    rw [moveEnemies_cons]
    refine List.Forall₂.cons ⟨r, fun h => h, rfl⟩ ?_
    refine List.Forall₂.imp ?_ (ih (moveEnemy c p e r).2.2)
    intro a b hab
    obtain ⟨r0, h1, h2⟩ := hab
    exact ⟨r0, fun h => h1 ((moveEnemy_spec c p e r).2.2.2.2.2.2.2 h), h2⟩

/-- The enemies and bullets at the end of a running tick are those before the collision
checks. -/
theorem update_lists (c : Canvas) (s : World) (last : Platform) (r : Rand) :
    (afterCollision (beforeCollision c s last r).1).enemies =
      (rollAttack (moveWorld c s last r).1.player (moveWorld c s last r).1.enemies).filter
        keepEnemy ∧
    (afterCollision (beforeCollision c s last r).1).bullets =
      ((moveWorld c s last r).1.bullets.map moveBullet).filter keepBullet := by
  obtain ⟨_, a2, a3, _⟩ := afterCollision_fields (beforeCollision c s last r).1
  rw [a2, a3, beforeCollision_enemies, beforeCollision_bullets, moveWorld_player]
  exact ⟨rfl, rfl⟩

/-- C14 (amended). In a running tick the final `enemies` is the list after movement and
roll damage, filtered in order, and the final `bullets` is the list of moved bullets,
filtered in order: an enemy that still has `hitPoints > 0` is removed if and only if
`x + w ≤ 0` after its move, a bullet if and only if `x + w ≤ 0` after its move, and
everything else is kept in the same relative order. -/
theorem offscreen_removal (c : Canvas) (s : World) (r : Rand) (hrun : s.gameOver = false)
    (hp : s.platforms ≠ []) :
    ∃ last s1 r1, (s.platforms.map scrollPlatform).getLast? = some last ∧
      update c s r = some (s1, r1) ∧
      s1.enemies =
        (rollAttack (moveWorld c s last r).1.player (moveWorld c s last r).1.enemies).filter
          (fun e => decide (e.x + e.w > 0 ∧ e.hitPoints > 0)) ∧
      s1.bullets = ((moveWorld c s last r).1.bullets.map moveBullet).filter
          (fun b => decide (b.x + b.w > 0)) ∧
      (∀ e ∈ rollAttack (moveWorld c s last r).1.player (moveWorld c s last r).1.enemies,
        e.hitPoints > 0 → (e ∉ s1.enemies ↔ e.x + e.w ≤ 0)) ∧
      (∀ b ∈ (moveWorld c s last r).1.bullets.map moveBullet,
        (b ∉ s1.bullets ↔ b.x + b.w ≤ 0)) ∧
      s1.enemies.Sublist
        (rollAttack (moveWorld c s last r).1.player (moveWorld c s last r).1.enemies) ∧
      s1.bullets.Sublist ((moveWorld c s last r).1.bullets.map moveBullet) := by
  obtain ⟨last, hl, hu⟩ := update_running c s r hrun hp
  obtain ⟨h1, h2⟩ := update_lists c s last r
  refine ⟨last, _, _, hl, hu, h1, h2, ?_, ?_, ?_, ?_⟩
  · intro e he hhp
    rw [h1, List.mem_filter]
    simp only [keepEnemy, decide_eq_true_eq, not_and, not_lt]
    constructor
    · intro h
      by_contra hx
      exact absurd hhp (not_lt.mpr (h he (not_le.mp hx)))
    · intro h _ hx
      exact absurd hx (not_lt.mpr h)
  · intro b hb
    rw [h2, List.mem_filter]
    simp only [keepBullet, decide_eq_true_eq, not_and, not_lt]
    constructor
    · intro h
      exact h hb
    · intro h _
      exact h
  · rw [h1]
    exact List.filter_sublist _
  · rw [h2]
    exact List.filter_sublist _

/-- The boundary case of the removal run on the code.  A walker whose move ends with its
right edge exactly at 0 (`x + w = 0`, one hit point) and a bullet whose move ends with its
right edge at 0 are both removed in that tick. -/
theorem edge_removal :
    ((worldWithWalker (-16)).platforms.map scrollPlatform).getLast?.map
        (fun last => (moveWorld canvas0 (worldWithWalker (-16)) last (constRand 0)).1.enemies.map
          (fun e => (e.x + e.w, e.hitPoints))) = some [(0, 1)] ∧
    (update canvas0 (worldWithWalker (-16)) (constRand 0)).map
        (fun q => (q.1.gameOver, q.1.enemies.length)) = some (false, 0) ∧
    ((worldWithBullet (-4)).platforms.map scrollPlatform).getLast?.map
        (fun last => ((moveWorld canvas0 (worldWithBullet (-4)) last (constRand 0)).1.bullets.map
          moveBullet).map (fun b => b.x + b.w)) = some [0] ∧
    (update canvas0 (worldWithBullet (-4)) (constRand 0)).map
        (fun q => (q.1.gameOver, q.1.bullets.length)) = some (false, 0) := by
  decide!

/-- C14 as stated fails: the walker of `worldWithWalker (-16)` ends its move with
`x + w = 0`, which is not `< 0`, keeps its hit point, and is removed by the tick. -/
theorem edge_enemy_removed :
    ¬ ∀ (c : Canvas) (s : World) (r : Rand) (last : Platform) (s1 : World) (r1 : Rand),
        s.gameOver = false → (s.platforms.map scrollPlatform).getLast? = some last →
        update c s r = some (s1, r1) →
        ∀ e ∈ rollAttack (moveWorld c s last r).1.player (moveWorld c s last r).1.enemies,
          e.hitPoints > 0 → (e ∉ s1.enemies ↔ e.x + e.w < 0) := by
  intro h
  obtain ⟨h1, h2, _⟩ := edge_removal
  obtain ⟨last, hl, hm⟩ := option_map_some _ _ _ h1
  obtain ⟨q, hu, hq⟩ := option_map_some _ _ _ h2
  obtain ⟨s1, r1⟩ := q
  simp only [Prod.mk.injEq] at hq
  have hnil : s1.enemies = [] := List.length_eq_zero.mp hq.2
  have hroll : rollAttack (moveWorld canvas0 (worldWithWalker (-16)) last (constRand 0)).1.player
      (moveWorld canvas0 (worldWithWalker (-16)) last (constRand 0)).1.enemies =
      (moveWorld canvas0 (worldWithWalker (-16)) last (constRand 0)).1.enemies := by
    have : (moveWorld canvas0 (worldWithWalker (-16)) last (constRand 0)).1.player.rollTimer
        = 0 := by
      rw [moveWorld_player, (applyGravity_box _ _).2.2.2.1]
      rfl
    simp [rollAttack, this]
  cases hE : (moveWorld canvas0 (worldWithWalker (-16)) last (constRand 0)).1.enemies with
  | nil =>
    rw [hE] at hm
    simp at hm
  | cons e es =>
    rw [hE] at hm
    simp only [List.map_cons, List.cons.injEq, Prod.mk.injEq] at hm
    obtain ⟨⟨hx, hhp⟩, _⟩ := hm
    have hmem : e ∈ rollAttack
        (moveWorld canvas0 (worldWithWalker (-16)) last (constRand 0)).1.player
        (moveWorld canvas0 (worldWithWalker (-16)) last (constRand 0)).1.enemies := by
      rw [hroll, hE]
      exact List.mem_cons_self _ _
    have := (h canvas0 (worldWithWalker (-16)) (constRand 0) last s1 r1 rfl hl hu e hmem
      (by rw [hhp]; decide)).mp (by rw [hnil]; exact List.not_mem_nil e)
    rw [hx] at this
    exact absurd this (by decide)

/-- The roll attack on one enemy: an overlapping enemy loses exactly one hit point and
nothing else, any other enemy is left as it is. -/
theorem hitEnemy_cases (p : Player) (e : Enemy) :
    (Overlap p e.x e.y e.w e.h ∧ hitEnemy p e = { e with hitPoints := e.hitPoints - 1 }) ∨
    (¬ Overlap p e.x e.y e.w e.h ∧ hitEnemy p e = e) := by
  unfold hitEnemy
  by_cases h : overlaps p e.x e.y e.w e.h = true
  · exact Or.inl ⟨(overlaps_iff p e.x e.y e.w e.h).mp h, by rw [if_pos h]⟩
  · exact Or.inr ⟨fun h2 => h ((overlaps_iff p e.x e.y e.w e.h).mpr h2), by rw [if_neg h]⟩

/-- The roll timer at the end of a running tick. -/
theorem update_rollTimer (c : Canvas) (s : World) (last : Platform) (r : Rand) :
    (0 < s.player.rollTimer ∧
      (afterCollision (beforeCollision c s last r).1).player.rollTimer =
        s.player.rollTimer - 1) ∨
    (s.player.rollTimer ≤ 0 ∧
      (afterCollision (beforeCollision c s last r).1).player.rollTimer = s.player.rollTimer) := by
  have h1 : (collide (beforeCollision c s last r).1.player (beforeCollision c s last r).1.enemies
      (beforeCollision c s last r).1.bullets (beforeCollision c s last r).1.gameOver).2.rollTimer
      = s.player.rollTimer := by
    rw [(collide_box _ _ _ _).2.2.2.2.1, beforeCollision_player,
      (applyGravity_box c s.player).2.2.2.1]
  by_cases h : 0 < s.player.rollTimer
  · left
    refine ⟨h, ?_⟩
    simp only [afterCollision, rollTick]
    rw [if_pos (by rw [h1]; exact h)]
    simp [h1]
  · right
    refine ⟨not_lt.mp h, ?_⟩
    simp only [afterCollision, rollTick]
    rw [if_neg (by rw [h1]; exact h)]
    exact h1

/-- C17. In a running tick the enemy loop leaves every `hitPoints` as it was; then, if
`rollTimer > 0` at the start of the tick, every enemy whose moved box strictly overlaps
the player's box loses exactly 1 hit point and every other enemy is untouched, with no
cap, and `rollTimer` ends the tick one lower; if `rollTimer` is 0 no enemy is touched and
`rollTimer` is unchanged.  The final list is the result, filtered by line 230. -/
theorem melee_damage (c : Canvas) (s : World) (r : Rand) (hrun : s.gameOver = false)
    (hp : s.platforms ≠ []) :
    ∃ last s1 r1, (s.platforms.map scrollPlatform).getLast? = some last ∧
      update c s r = some (s1, r1) ∧
      (s1.player.x = (moveWorld c s last r).1.player.x ∧
        s1.player.y = (moveWorld c s last r).1.player.y ∧
        s1.player.w = (moveWorld c s last r).1.player.w ∧
        s1.player.h = (moveWorld c s last r).1.player.h) ∧
      List.Forall₂ (fun e e1 => e1.hitPoints = e.hitPoints)
        (afterSpawn c s last r).1.enemies (moveWorld c s last r).1.enemies ∧
      ((0 < s.player.rollTimer ∧
          s1.enemies = ((moveWorld c s last r).1.enemies.map
            (hitEnemy (moveWorld c s last r).1.player)).filter keepEnemy ∧
          s1.player.rollTimer = s.player.rollTimer - 1) ∨
        (s.player.rollTimer ≤ 0 ∧
          s1.enemies = (moveWorld c s last r).1.enemies.filter keepEnemy ∧
          s1.player.rollTimer = s.player.rollTimer)) ∧
      (∀ e : Enemy,
        (Overlap (moveWorld c s last r).1.player e.x e.y e.w e.h ∧
          hitEnemy (moveWorld c s last r).1.player e =
            { e with hitPoints := e.hitPoints - 1 }) ∨
        (¬ Overlap (moveWorld c s last r).1.player e.x e.y e.w e.h ∧
          hitEnemy (moveWorld c s last r).1.player e = e)) := by
  obtain ⟨last, hl, hu⟩ := update_running c s r hrun hp
  obtain ⟨h1, _⟩ := update_lists c s last r
  obtain ⟨u1, u2, u3, u4, _⟩ := update_player c s last r
  refine ⟨last, _, _, hl, hu, ?_, ?_, ?_, fun e => hitEnemy_cases _ e⟩
  · rw [moveWorld_player]
    exact ⟨u1, u2, u3, u4⟩
  · rw [(moveWorld_afterSpawn c s last r).1]
    refine List.Forall₂.imp ?_ (moveEnemies_forall2 c (applyGravity c s.player)
      (afterSpawn c s last r).1.enemies (afterSpawn c s last r).2)
    intro a b hab
    obtain ⟨r0, _, h2⟩ := hab
    rw [h2]
    exact (moveEnemy_spec c (applyGravity c s.player) a r0).2.2.2.2.2.1
  · have hrt : (moveWorld c s last r).1.player.rollTimer = s.player.rollTimer := by
      rw [moveWorld_player, (applyGravity_box c s.player).2.2.2.1]
    rcases update_rollTimer c s last r with ⟨g1, g2⟩ | ⟨g1, g2⟩
    · left
      refine ⟨g1, ?_, g2⟩
      rw [h1]
      simp [rollAttack, hrt, g1]
    · right
      refine ⟨g1, ?_, g2⟩
      rw [h1]
      simp [rollAttack, hrt, not_lt.mpr g1]

/-! ## Timers -/

/-- The invincibility timer at the end of a running tick. -/
theorem update_invincibleTimer (c : Canvas) (s : World) (last : Platform) (r : Rand) :
    (0 < s.player.invincibleTimer ∧
      (afterCollision (beforeCollision c s last r).1).player.invincibleTimer =
        s.player.invincibleTimer - 1 ∧
      (afterCollision (beforeCollision c s last r).1).gameOver = s.gameOver) ∨
    (s.player.invincibleTimer ≤ 0 ∧
      (afterCollision (beforeCollision c s last r).1).player.invincibleTimer =
        s.player.invincibleTimer) := by
  have h1 : (beforeCollision c s last r).1.player.invincibleTimer = s.player.invincibleTimer := by
    rw [beforeCollision_player, (applyGravity_box c s.player).2.2.2.2]
  by_cases h : 0 < s.player.invincibleTimer
  · left
    refine ⟨h, ?_, ?_⟩
    · simp [afterCollision, collide, (rollTick_box _).2.2.2.2.1, h1, not_le.mpr h]
    · simp [afterCollision, collide, h1, not_le.mpr h, beforeCollision_gameOver]
  · right
    refine ⟨not_lt.mp h, ?_⟩
    simp [afterCollision, collide, (rollTick_box _).2.2.2.2.1, h1, not_lt.mp h]

/-- The effect of a primary action on the two timers: they are left as they are, or set
to 10 and 15 together, or both cleared by the restart. -/
theorem touchstart_timers (c : Canvas) (s : World) :
    ((touchstart c s).player.rollTimer = s.player.rollTimer ∧
      (touchstart c s).player.invincibleTimer = s.player.invincibleTimer) ∨
    ((touchstart c s).player.rollTimer = 10 ∧ (touchstart c s).player.invincibleTimer = 15) ∨
    ((touchstart c s).player.rollTimer = 0 ∧ (touchstart c s).player.invincibleTimer = 0) := by
  unfold touchstart
  by_cases h1 : s.gameOver = true
  · rw [if_pos h1]
    exact Or.inr (Or.inr ⟨rfl, rfl⟩)
  · rw [if_neg h1]
    by_cases h2 : s.player.jumpsRemaining > 0
    · rw [if_pos h2]
      by_cases h3 : s.player.jumpsRemaining - 1 = 0
      · right
        left
        simp [h3]
      · left
        simp [h3]
    · rw [if_neg h2]
      exact Or.inl ⟨rfl, rfl⟩

/-- C15. In every state reached from the initial world by ticks, primary actions and
restarts, `0 ≤ rollTimer ≤ 10`, `0 ≤ invincibleTimer ≤ 15`, and `rollTimer > 0` implies
`invincibleTimer > 0`; a tick taken while the roll is active therefore leaves `gameOver`
as it is. -/
theorem roll_implies_invincible (c : Canvas) (evs : List Event) (r : Rand) :
    ∃ s r1, run c evs (initialWorld c) r = some (s, r1) ∧
      (0 ≤ s.player.rollTimer ∧ s.player.rollTimer ≤ 10) ∧
      (0 ≤ s.player.invincibleTimer ∧ s.player.invincibleTimer ≤ 15) ∧
      (s.player.rollTimer > 0 → s.player.invincibleTimer > 0) ∧
      (s.player.rollTimer > 0 →
        ∀ r2, ∃ s2 r3, update c s r2 = some (s2, r3) ∧ s2.gameOver = s.gameOver) := by
  obtain ⟨s, r1, hr, hp, h1, h2, h3, h4, h5⟩ := run_invariant c
    (fun w => w.platforms ≠ [] ∧ 0 ≤ w.player.rollTimer ∧ w.player.rollTimer ≤ 10 ∧
      0 ≤ w.player.invincibleTimer ∧ w.player.invincibleTimer ≤ 15 ∧
      (w.player.rollTimer > 0 → w.player.invincibleTimer = w.player.rollTimer + 5))
    (fun w hw => hw.1)
    (by
      intro w rw w1 rw1 hw hu
      refine ⟨update_platforms c w w1 rw rw1 hw.1 hu, ?_⟩
      obtain ⟨_, a1, a2, a3, a4, a5⟩ := hw
      rcases update_some c w w1 rw rw1 hu with ⟨_, e1, _⟩ | ⟨_, _, last, _, e1, _⟩
      · rw [e1]
        exact ⟨a1, a2, a3, a4, a5⟩
      · rw [e1]
        rcases update_rollTimer c w last rw with ⟨g1, g2⟩ | ⟨g1, g2⟩ <;>
        rcases update_invincibleTimer c w last rw with ⟨i1, i2, _⟩ | ⟨i1, i2⟩ <;>
        rw [g2, i2] <;>
        refine ⟨?_, ?_, ?_, ?_, ?_⟩ <;> intros <;> omega)
    (by
      intro w hw
      refine ⟨touchstart_platforms c w hw.1, ?_⟩
      obtain ⟨_, a1, a2, a3, a4, a5⟩ := hw
      rcases touchstart_timers c w with ⟨t1, t2⟩ | ⟨t1, t2⟩ | ⟨t1, t2⟩ <;>
      rw [t1, t2] <;>
      refine ⟨?_, ?_, ?_, ?_, ?_⟩ <;> intros <;> omega)
    evs (initialWorld c) r
    ⟨by simp [initialWorld], by simp [initialWorld], by simp [initialWorld],
      by simp [initialWorld], by simp [initialWorld], by simp [initialWorld]⟩
  refine ⟨s, r1, hr, ⟨h1, h2⟩, ⟨h3, h4⟩, fun h => by have := h5 h; omega, ?_⟩
  intro hroll r2
  have hinv : 0 < s.player.invincibleTimer := by have := h5 hroll; omega
  cases hg : s.gameOver with
  | true => exact ⟨s, r2, update_gameOver c s r2 hg, hg⟩
  | false =>
    obtain ⟨last, _, hu⟩ := update_running c s r2 hg hp
    refine ⟨_, _, hu, ?_⟩
    rcases update_invincibleTimer c s last r2 with ⟨_, _, i3⟩ | ⟨i1, _⟩
    · rw [i3, hg]
    · omega

/-! ## Terrain -/

/-- The terrain phase on the scrolled segments `ps`: a segment starting at `canvas.width`
is appended exactly when the last one ends left of `canvas.width`, and then at most the
leading segment is dropped, only if more than 3 segments exist and its right edge is
`< 0`. -/
theorem extendPlatforms_spec (c : Canvas) (ps : List Platform) (last : Platform) (r : Rand) :
    ∃ ps1 : List Platform,
      ((last.x + last.w < c.width ∧
          ps1 = ps ++ [{ x := c.width, y := c.height - groundHeight, w := 200 + r 0 * 100,
                         h := groundHeight }] ∧
          (extendPlatforms c ps last r).2.1 = c.width + (200 + r 0 * 100)) ∨
        (c.width ≤ last.x + last.w ∧ ps1 = ps ∧
          (extendPlatforms c ps last r).2.1 = last.x + last.w)) ∧
      ((extendPlatforms c ps last r).1 = ps1 ∨
        (3 < ps1.length ∧ ∃ p0 : Platform, p0.x + p0.w < 0 ∧
          ps1 = p0 :: (extendPlatforms c ps last r).1)) := by
  unfold extendPlatforms
  simp only []
  split_ifs with h1
  · refine ⟨_, Or.inl ⟨h1, rfl, rfl⟩, ?_⟩
    simp only []
    split
    · rename_i p0 rest heq
      split_ifs with h2
      · right
        rw [heq]
        rw [heq] at h2
        exact ⟨h2.1, p0, h2.2, rfl⟩
      · left
        rw [heq]
    · left
      rename_i heq
      rw [heq]
  · refine ⟨_, Or.inr ⟨not_lt.mp h1, rfl, rfl⟩, ?_⟩
    simp only []
    split
    · rename_i p0 rest
      split_ifs with h2
      · right
        exact ⟨h2.1, p0, h2.2, rfl⟩
      · left
        rfl
    · left
      rfl

/-- After the terrain phase the last segment reaches `canvas.width` and its right edge
is the value given to `lastPlatformEnd`, provided the width draw is not negative. -/
theorem extendPlatforms_last (c : Canvas) (ps : List Platform) (last : Platform) (r : Rand)
    (hl : ps.getLast? = some last) (h0 : 0 ≤ r 0) :
    ∃ l, (extendPlatforms c ps last r).1.getLast? = some l ∧ c.width ≤ l.x + l.w ∧
      (extendPlatforms c ps last r).2.1 = l.x + l.w := by
  obtain ⟨ps1, hpush, hdrop⟩ := extendPlatforms_spec c ps last r
  have h1 : ∃ l, ps1.getLast? = some l ∧ c.width ≤ l.x + l.w ∧
      (extendPlatforms c ps last r).2.1 = l.x + l.w := by
    rcases hpush with ⟨_, e1, e2⟩ | ⟨g1, e1, e2⟩
    · refine ⟨_, by rw [e1]; exact List.getLast?_concat _, ?_, e2⟩
      simp only []
      linarith
    · exact ⟨last, by rw [e1]; exact hl, g1, e2⟩
  rcases hdrop with e | ⟨hlen, p0, _, e⟩
  · rw [e]
    exact h1
  · obtain ⟨l, hl1, hl2, hl3⟩ := h1
    refine ⟨l, ?_, hl2, hl3⟩
    cases hE : (extendPlatforms c ps last r).1 with
    | nil =>
      rw [e, hE] at hlen
      simp at hlen
    | cons a t =>
      rw [e, hE, List.getLast?_cons_cons] at hl1
      exact hl1

theorem update_unit (c : Canvas) (s s1 : World) (r r1 : Rand) (hr : r.unit)
    (h : update c s r = some (s1, r1)) : r1.unit := by
  rcases update_some c s s1 r r1 h with ⟨_, _, e⟩ | ⟨_, _, last, _, _, e⟩
  · rw [e]
    exact hr
  · obtain ⟨s0, r0, _, _, _, _, _, _, e7, _, _, _, _, _, m6⟩ := moveWorld_spec c s last r
    rw [e, (beforeCollision_counters c s last r).2.2.2, m6]
    exact (moveEnemies_spec c _ _ _).2.2 (spawnStep_unit c s0 r0 (e7 hr))

/-- An invariant kept by every returning tick on draws in `[0, 1)` holds after any number
of ticks on such draws, and the draws left are in `[0, 1)`. -/
theorem ticks_invariant_unit (c : Canvas) (P : World → Prop)
    (hstep : ∀ s r s1 r1, r.unit → P s → update c s r = some (s1, r1) → P s1)
    (n : ℕ) (s : World) (r : Rand) (s1 : World) (r1 : Rand) (hr : r.unit) (h0 : P s)
    (h : ticks c n s r = some (s1, r1)) : P s1 ∧ r1.unit := by
  induction n generalizing s r with
  | zero =>
    simp only [ticks, Option.some.injEq, Prod.mk.injEq] at h
    rw [← h.1, ← h.2]
    exact ⟨h0, hr⟩
  | succ n ih =>
    simp only [ticks] at h
    cases hu : update c s r with
    | none => simp [hu] at h
    | some q =>
      obtain ⟨s2, r2⟩ := q
      rw [hu] at h
      exact ih s2 r2 (update_unit c s s2 r r2 hr hu) (hstep s r s2 r2 hr h0 hu) h

/-- The terrain at the end of a running tick. -/
theorem update_terrain (c : Canvas) (s : World) (last : Platform) (r : Rand) :
    (afterCollision (beforeCollision c s last r).1).platforms =
      (extendPlatforms c (s.platforms.map scrollPlatform) last r).1 ∧
    (afterCollision (beforeCollision c s last r).1).lastPlatformEnd =
      (extendPlatforms c (s.platforms.map scrollPlatform) last r).2.1 := by
  obtain ⟨a1, _, _, _, _, _, a7⟩ := afterCollision_fields (beforeCollision c s last r).1
  rw [a1, a7, beforeCollision_platforms]
  refine ⟨rfl, ?_⟩
  simp [beforeCollision, moveWorld_lastPlatformEnd]

/-- One tick on a non-empty terrain: in game over nothing changes; otherwise the scrolled
terrain gets at most one segment appended at `canvas.width`, loses at most its leading
segment, and ends with its last segment reaching `canvas.width`. -/
theorem update_terrain_step (c : Canvas) (s : World) (r : Rand) (hp : s.platforms ≠ [])
    (h0 : 0 ≤ r 0) :
    ∃ s2 r3, update c s r = some (s2, r3) ∧ s2.platforms ≠ [] ∧
      ((s.gameOver = true ∧ s2 = s) ∨
        (s.gameOver = false ∧ LastReaches c s2 ∧
          ∃ ps1 : List Platform,
            (ps1 = s.platforms.map scrollPlatform ∨
              ∃ p : Platform, p.x = c.width ∧ ps1 = s.platforms.map scrollPlatform ++ [p]) ∧
            (s2.platforms = ps1 ∨
              (3 < ps1.length ∧ ∃ p0 : Platform, p0.x + p0.w < 0 ∧
                ps1 = p0 :: s2.platforms)))) := by
  cases hg : s.gameOver with
  | true => exact ⟨s, r, update_gameOver c s r hg, hp, Or.inl ⟨rfl, rfl⟩⟩
  | false =>
    obtain ⟨last, hl, hu⟩ := update_running c s r hg hp
    obtain ⟨t1, t2⟩ := update_terrain c s last r
    refine ⟨_, _, hu, ?_, Or.inr ⟨rfl, ?_, ?_⟩⟩
    · rw [t1]
      exact extendPlatforms_ne c _ last r (by simpa using hp)
    · obtain ⟨l, e1, e2, e3⟩ := extendPlatforms_last c _ last r hl h0
      exact ⟨l, by rw [t1]; exact e1, e2, by rw [t2]; exact e3⟩
    · obtain ⟨ps1, hpush, hdrop⟩ :=
        extendPlatforms_spec c (s.platforms.map scrollPlatform) last r
      refine ⟨ps1, ?_, by rw [t1]; exact hdrop⟩
      rcases hpush with ⟨_, e1, _⟩ | ⟨_, e1, _⟩
      · exact Or.inr ⟨_, rfl, e1⟩
      · exact Or.inl e1

/-- C20. After any number of ticks from the start-up world or from `restartGame`, on
draws in `[0, 1)`, `platforms` is not empty, so the next tick returns; that tick removes
at most one segment, the leading one, only when more than 3 segments exist and its right
edge is `< 0`; and after it the last segment's right edge is `≥ canvas.width` and equals
`lastPlatformEnd`. -/
theorem terrain_never_empty (c : Canvas) (o : Option World) (n : ℕ) (r : Rand) (hr : r.unit) :
    ∃ s r1, ticks c n (startWorld c o) r = some (s, r1) ∧ s.platforms ≠ [] ∧
      ∀ r2 : Rand, r2.unit →
        ∃ s2 r3, update c s r2 = some (s2, r3) ∧ s2.platforms ≠ [] ∧ LastReaches c s2 ∧
          (s2.platforms = s.platforms ∨
            ∃ ps1 : List Platform,
              (ps1 = s.platforms.map scrollPlatform ∨
                ∃ p : Platform, p.x = c.width ∧ ps1 = s.platforms.map scrollPlatform ++ [p]) ∧
              (s2.platforms = ps1 ∨
                (3 < ps1.length ∧ ∃ p0 : Platform, p0.x + p0.w < 0 ∧
                  ps1 = p0 :: s2.platforms))) := by
  obtain ⟨s, r1, ht, hp⟩ := ticks_total c n (startWorld c o) r (startWorld_platforms c o)
  have hinv : (s.gameOver = true → LastReaches c s) ∧ r1.unit := by
    refine ticks_invariant_unit c (fun w => w.gameOver = true → LastReaches c w) ?_ n
      (startWorld c o) r s r1 hr ?_ ht
    · intro w rw w1 rw1 hrw hw hu
      by_cases hpw : w.platforms = []
      · simp [update, hpw] at hu
        intro hg1
        rw [← hu.2.1] at hg1 ⊢
        exact hw (by simpa using hu.1)
      · obtain ⟨w2, rw2, hu2, _, hcase⟩ := update_terrain_step c w rw hpw (hrw 0).1
        rw [hu] at hu2
        simp only [Option.some.injEq, Prod.mk.injEq] at hu2
        rw [hu2.1]
        rcases hcase with ⟨g1, g2⟩ | ⟨_, g2, _⟩
        · rw [g2]
          exact hw
        · exact fun _ => g2
    · intro hg
      cases o <;> simp [startWorld, initialWorld, restartGame] at hg
  refine ⟨s, r1, ht, hp, ?_⟩
  intro r2 hr2
  obtain ⟨s2, r3, hu, hp2, hcase⟩ := update_terrain_step c s r2 hp (hr2 0).1
  refine ⟨s2, r3, hu, hp2, ?_, ?_⟩
  · rcases hcase with ⟨g1, g2⟩ | ⟨_, g2, _⟩
    · rw [g2]
      exact hinv.1 g1
    · exact g2
  · rcases hcase with ⟨_, g2⟩ | ⟨_, _, g3⟩
    · exact Or.inl (by rw [g2])
    · exact Or.inr g3

/-! ## Following one enemy -/

theorem followEnemy_append (c : Canvas) (e : Enemy) (trace : List (Player × Rand))
    (pr : Player × Rand) :
    followEnemy c e (trace ++ [pr]) = stepEnemy c (followEnemy c e trace) pr := by
  simp [followEnemy, List.foldl_append]

/-- The roll attack changes nothing but `hitPoints`. -/
theorem hitEnemy_fields (p : Player) (e : Enemy) :
    (hitEnemy p e).type = e.type ∧ (hitEnemy p e).x = e.x ∧ (hitEnemy p e).y = e.y ∧
    (hitEnemy p e).w = e.w ∧ (hitEnemy p e).h = e.h ∧ (hitEnemy p e).speed = e.speed ∧
    (hitEnemy p e).cooldown = e.cooldown ∧ (hitEnemy p e).jumpTimer = e.jumpTimer ∧
    (hitEnemy p e).ySpeed = e.ySpeed := by
  rcases hitEnemy_cases p e with ⟨_, h⟩ | ⟨_, h⟩ <;> rw [h] <;> simp

/-- Apart from `hitPoints`, `stepEnemy` is the callback of the enemy loop. -/
theorem stepEnemy_fields (c : Canvas) (e : Enemy) (pr : Player × Rand) :
    (stepEnemy c e pr).type = (moveEnemy c pr.1 e pr.2).1.type ∧
    (stepEnemy c e pr).x = (moveEnemy c pr.1 e pr.2).1.x ∧
    (stepEnemy c e pr).y = (moveEnemy c pr.1 e pr.2).1.y ∧
    (stepEnemy c e pr).w = (moveEnemy c pr.1 e pr.2).1.w ∧
    (stepEnemy c e pr).h = (moveEnemy c pr.1 e pr.2).1.h ∧
    (stepEnemy c e pr).speed = (moveEnemy c pr.1 e pr.2).1.speed ∧
    (stepEnemy c e pr).cooldown = (moveEnemy c pr.1 e pr.2).1.cooldown ∧
    (stepEnemy c e pr).jumpTimer = (moveEnemy c pr.1 e pr.2).1.jumpTimer ∧
    (stepEnemy c e pr).ySpeed = (moveEnemy c pr.1 e pr.2).1.ySpeed := by
  unfold stepEnemy
  simp only []
  split_ifs
  · exact hitEnemy_fields _ _
  · exact ⟨rfl, rfl, rfl, rfl, rfl, rfl, rfl, rfl, rfl⟩

/-- Every moved enemy is the callback's result on an enemy of the list. -/
theorem moveEnemies_mem (c : Canvas) (p : Player) (es : List Enemy) (r : Rand) :
    ∀ e1 ∈ (moveEnemies c p es r).1,
      ∃ e ∈ es, ∃ r0 : Rand, (r.unit → r0.unit) ∧ e1 = (moveEnemy c p e r0).1 := by
  induction es generalizing r with
  | nil => simp [moveEnemies]
  | cons e es ih =>
    rw [moveEnemies_cons]
    intro e1 he1
    rcases List.mem_cons.mp he1 with he | he
    · exact ⟨e, List.mem_cons_self _ _, r, fun h => h, he⟩
    · obtain ⟨e0, hm, r0, h1, h2⟩ := ih (moveEnemy c p e r).2.2 e1 he
      exact ⟨e0, List.mem_cons_of_mem _ hm, r0,
        fun h => h1 ((moveEnemy_spec c p e r).2.2.2.2.2.2.2 h), h2⟩

theorem afterSpawn_unit (c : Canvas) (s : World) (last : Platform) (r : Rand) (hr : r.unit) :
    (afterSpawn c s last r).2.unit := by
  unfold afterSpawn
  simp only []
  exact spawnStep_unit c _ _ (extendPlatforms_unit c _ last r hr)

/-- Every enemy left at the end of a running tick is `stepEnemy` of an enemy that was in
the list after the spawn phase, for the player of that tick. -/
theorem update_enemy_origin (c : Canvas) (s : World) (last : Platform) (r : Rand) :
    ∀ e1 ∈ (afterCollision (beforeCollision c s last r).1).enemies,
      ∃ e ∈ (afterSpawn c s last r).1.enemies, ∃ r0 : Rand, (r.unit → r0.unit) ∧
        e1 = stepEnemy c e ((moveWorld c s last r).1.player, r0) := by
  intro e1 he1
  rw [(update_lists c s last r).1] at he1
  have hmem := (List.mem_filter.mp he1).1
  have key : ∀ e2 ∈ (moveWorld c s last r).1.enemies,
      ∃ e ∈ (afterSpawn c s last r).1.enemies, ∃ r0 : Rand, (r.unit → r0.unit) ∧
        e2 = (moveEnemy c (moveWorld c s last r).1.player e r0).1 := by
    intro e2 he2
    rw [moveWorld_player]
    rw [(moveWorld_afterSpawn c s last r).1] at he2
    obtain ⟨e, hm, r0, h1, h2⟩ := moveEnemies_mem c _ _ _ e2 he2
    exact ⟨e, hm, r0, fun hr => h1 (afterSpawn_unit c s last r hr), h2⟩
  unfold rollAttack at hmem
  split_ifs at hmem with hroll
  · obtain ⟨e2, he2, heq⟩ := List.mem_map.mp hmem
    obtain ⟨e, hm, r0, h1, h2⟩ := key e2 he2
    refine ⟨e, hm, r0, h1, ?_⟩
    simp only [stepEnemy, hroll, if_true]
    rw [← h2, heq]
  · obtain ⟨e, hm, r0, h1, h2⟩ := key e1 hmem
    refine ⟨e, hm, r0, h1, ?_⟩
    simp only [stepEnemy, hroll, if_false]
    exact h2

/-! ## Shooters -/

/-- The callback of the enemy loop on a shooter: it fires exactly when `shootsNow` holds,
one bullet from its new position, and then draws a new cooldown; otherwise it pushes
nothing and its cooldown is one lower. -/
theorem moveEnemy_shooter (c : Canvas) (p : Player) (e : Enemy) (r : Rand)
    (ht : e.type = .SHOOTER) :
    (moveEnemy c p e r).1.type = .SHOOTER ∧
    ((shootsNow p e ∧
        (moveEnemy c p e r).2.1 =
          [{ x := e.x - e.speed, y := e.y + e.h / 2, w := 8, h := 8, speed := 4 }] ∧
        (moveEnemy c p e r).1.cooldown = 80 + r 0 * 40) ∨
      (¬ shootsNow p e ∧ (moveEnemy c p e r).2.1 = [] ∧
        (moveEnemy c p e r).1.cooldown = e.cooldown - 1)) := by
  unfold moveEnemy shootsNow
  simp only [ht]
  split_ifs with h1
  · exact ⟨rfl, Or.inl ⟨h1, rfl, rfl⟩⟩
  · exact ⟨rfl, Or.inr ⟨h1, rfl, rfl⟩⟩

/-- The cooldown of a shooter followed through `trace` loses at most 1 per tick below any
bound `B ≤ 80` it started above. -/
theorem shooter_cooldown (c : Canvas) (trace : List (Player × Rand))
    (htr : ∀ q ∈ trace, q.2.unit) (e : Enemy) (ht : e.type = .SHOOTER) (B : ℚ) (hB : B ≤ 80)
    (h : B ≤ e.cooldown) :
    (followEnemy c e trace).type = .SHOOTER ∧
      B - (trace.length : ℚ) ≤ (followEnemy c e trace).cooldown := by
  induction trace generalizing e B with
  | nil => simpa [followEnemy] using ⟨ht, h⟩
  | cons pr tr ih =>
    have hunit := htr pr (List.mem_cons_self _ _)
    obtain ⟨f1, _, _, _, _, _, f7, _⟩ := stepEnemy_fields c e pr
    obtain ⟨m1, m2⟩ := moveEnemy_shooter c pr.1 e pr.2 ht
    have hcd : B - 1 ≤ (stepEnemy c e pr).cooldown := by
      rw [f7]
      rcases m2 with ⟨_, _, g⟩ | ⟨_, _, g⟩
      · rw [g]
        linarith [(hunit 0).1]
      · rw [g]
        linarith
    obtain ⟨i1, i2⟩ := ih (fun q hq => htr q (List.mem_cons_of_mem _ hq)) (stepEnemy c e pr)
      (by rw [f1]; exact m1) (B - 1) (by linarith) hcd
    have hf : followEnemy c e (pr :: tr) = followEnemy c (stepEnemy c e pr) tr := rfl
    rw [hf]
    refine ⟨i1, ?_⟩
    simp only [List.length_cons]
    push_cast
    linarith

/-- C18. In one tick a shooter pushes at most one bullet, and pushes one exactly when,
after its move, it is closer than 250 to the player and its decremented cooldown is
`≤ 0`; its cooldown is then reset into `[80, 120)`.  If it fires in one tick and again
after being followed through `trace`, the trace has at least 79 ticks, so the two shots
are at least 80 ticks apart. -/
theorem no_sustained_fire (c : Canvas) (e : Enemy) (he : e.type = .SHOOTER) (p : Player)
    (r : Rand) (hr : r.unit) (trace : List (Player × Rand)) (htr : ∀ q ∈ trace, q.2.unit) :
    (moveEnemy c p e r).2.1.length ≤ 1 ∧
    ((shootsNow p e ∧
        (moveEnemy c p e r).2.1 =
          [{ x := e.x - e.speed, y := e.y + e.h / 2, w := 8, h := 8, speed := 4 }] ∧
        80 ≤ (moveEnemy c p e r).1.cooldown ∧ (moveEnemy c p e r).1.cooldown < 120) ∨
      (¬ shootsNow p e ∧ (moveEnemy c p e r).2.1 = [] ∧
        (moveEnemy c p e r).1.cooldown = e.cooldown - 1)) ∧
    (shootsNow p e →
      ∀ p2 : Player, shootsNow p2 (followEnemy c (stepEnemy c e (p, r)) trace) →
        79 ≤ trace.length) := by
  obtain ⟨m1, m2⟩ := moveEnemy_shooter c p e r he
  refine ⟨?_, ?_, ?_⟩
  · rcases m2 with ⟨_, g, _⟩ | ⟨_, g, _⟩ <;> rw [g] <;> simp
  · rcases m2 with ⟨g1, g2, g3⟩ | ⟨g1, g2, g3⟩
    · refine Or.inl ⟨g1, g2, ?_, ?_⟩
      · rw [g3]
        linarith [(hr 0).1]
      · rw [g3]
        linarith [(hr 0).2]
    · exact Or.inr ⟨g1, g2, g3⟩
  · intro hshot p2 hshot2
    obtain ⟨f1, _, _, _, _, _, f7, _⟩ := stepEnemy_fields c e (p, r)
    have hcd : (80 : ℚ) ≤ (stepEnemy c e (p, r)).cooldown := by
      rw [f7]
      rcases m2 with ⟨_, _, g⟩ | ⟨g, _, _⟩
      · simp only []
        rw [g]
        linarith [(hr 0).1]
      · exact absurd hshot g
    obtain ⟨_, i2⟩ := shooter_cooldown c trace htr (stepEnemy c e (p, r))
      (by rw [f1]; exact m1) 80 (le_refl 80) hcd
    have h3 := hshot2.2
    have h4 : (79 : ℚ) ≤ (trace.length : ℚ) := by linarith
    exact_mod_cast h4

/-! ## Jumpers -/

/-- The callback of the enemy loop on a jumper: with `v` the vertical speed after the
possible jump start and gravity, the jumper moves to `y + v`, and is put back on the
ground with speed 0 if that takes its bottom edge below ground level. -/
theorem moveEnemy_jumper (c : Canvas) (p : Player) (e : Enemy) (r : Rand)
    (ht : e.type = .JUMPER) :
    (moveEnemy c p e r).1.type = .JUMPER ∧ (moveEnemy c p e r).1.h = e.h ∧
    ∃ v : ℚ,
      ((jumpsNow p e ∧ v = -8 + gravity ∧ (moveEnemy c p e r).1.jumpTimer = 60 + r 0 * 40) ∨
        (¬ jumpsNow p e ∧ v = e.ySpeed + gravity ∧
          (moveEnemy c p e r).1.jumpTimer = e.jumpTimer - 1)) ∧
      ((e.y + v + e.h > c.height - groundHeight ∧
          (moveEnemy c p e r).1.y = c.height - groundHeight - e.h ∧
          (moveEnemy c p e r).1.ySpeed = 0) ∨
        (e.y + v + e.h ≤ c.height - groundHeight ∧ (moveEnemy c p e r).1.y = e.y + v ∧
          (moveEnemy c p e r).1.ySpeed = v)) := by
  unfold moveEnemy jumpsNow
  simp only [ht]
  split_ifs with h1 h2 h2
  · exact ⟨rfl, rfl, -8 + gravity, Or.inl ⟨h1, rfl, rfl⟩, Or.inl ⟨h2, rfl, rfl⟩⟩
  · exact ⟨rfl, rfl, -8 + gravity, Or.inl ⟨h1, rfl, rfl⟩, Or.inr ⟨not_lt.mp h2, rfl, rfl⟩⟩
  · exact ⟨rfl, rfl, e.ySpeed + gravity, Or.inr ⟨h1, rfl, rfl⟩, Or.inl ⟨h2, rfl, rfl⟩⟩
  · exact ⟨rfl, rfl, e.ySpeed + gravity, Or.inr ⟨h1, rfl, rfl⟩,
      Or.inr ⟨not_lt.mp h2, rfl, rfl⟩⟩

/-- A jumper that satisfies `JumperInv` is not below ground level. -/
theorem JumperInv_ground (c : Canvas) (e : Enemy) (h : JumperInv c e) :
    e.y + e.h ≤ c.height - groundHeight := by
  obtain ⟨_, h1 | ⟨n, n1, n2, _, n4, _⟩⟩ := h
  · exact le_of_eq h1.1
  · rw [n4]
    have a1 : (0 : ℚ) ≤ (n : ℚ) := Nat.cast_nonneg n
    have a2 : (n : ℚ) ≤ 39 := by exact_mod_cast n2
    nlinarith [mul_nonneg a1 (sub_nonneg.mpr a2)]

/-- One tick keeps `JumperInv`, and a jump can only start from rest on the ground. -/
theorem jumper_step (c : Canvas) (e : Enemy) (pr : Player × Rand) (h : JumperInv c e)
    (h0 : 0 ≤ pr.2 0) :
    JumperInv c (stepEnemy c e pr) ∧
      (jumpsNow pr.1 e → e.y + e.h = c.height - groundHeight ∧ e.ySpeed = 0) := by
  obtain ⟨ht, hcase⟩ := h
  obtain ⟨f1, _, f3, _, f5, _, _, f8, f9⟩ := stepEnemy_fields c e pr
  obtain ⟨m1, m2, v, mj, ml⟩ := moveEnemy_jumper c pr.1 e pr.2 ht
  unfold JumperInv
  rw [f1, f3, f5, f8, f9]
  rcases hcase with ⟨r1, r2⟩ | ⟨n, n1, n2, n3, n4, n5⟩
  · -- resting on the ground
    refine ⟨⟨m1, ?_⟩, fun _ => ⟨r1, r2⟩⟩
    rcases mj with ⟨_, j2, j3⟩ | ⟨_, j2, _⟩
    · -- the jump starts: first tick of the jump
      rcases ml with ⟨l1, _, _⟩ | ⟨_, l2, l3⟩
      · rw [j2] at l1
        norm_num [gravity] at l1
        linarith
      · right
        refine ⟨1, le_refl 1, by norm_num, ?_, ?_, ?_⟩
        · rw [l3, j2]
          norm_num [gravity]
        · rw [l2, m2, j2]
          norm_num [gravity]
          linarith
        · rw [j3]
          norm_num
          linarith
    · -- no jump: gravity pulls and the ground stops
      rcases ml with ⟨_, l2, l3⟩ | ⟨l1, _, _⟩
      · left
        exact ⟨by rw [l2, m2]; ring, l3⟩
      · rw [j2, r2] at l1
        norm_num [gravity] at l1
        linarith
  · -- in the air
    have a1 : (1 : ℚ) ≤ (n : ℚ) := by exact_mod_cast n1
    have a2 : (n : ℚ) ≤ 39 := by exact_mod_cast n2
    have hnojump : ¬ jumpsNow pr.1 e := by
      intro hj
      have := hj.1
      linarith
    refine ⟨⟨m1, ?_⟩, fun hj => absurd hj hnojump⟩
    rcases mj with ⟨j1, _, _⟩ | ⟨_, j2, j3⟩
    · exact absurd j1 hnojump
    · rcases ml with ⟨_, l2, l3⟩ | ⟨l1, l2, l3⟩
      · left
        exact ⟨by rw [l2, m2]; ring, l3⟩
      · right
        have hsum : e.y + v + e.h =
            c.height - groundHeight - 8 * ((n : ℚ) + 1) +
              1 / 5 * ((n : ℚ) + 1) * ((n : ℚ) + 1 + 1) := by
          have : e.y + v + e.h = (e.y + e.h) + v := by ring
          rw [this, n4, j2, n3]
          norm_num [gravity]
          ring
        have hn39 : n + 1 ≤ 39 := by
          by_contra hcon
          have hge : (39 : ℚ) ≤ (n : ℚ) := by
            have : 39 ≤ n := by omega
            exact_mod_cast this
          rw [hsum] at l1
          have hprod : (0 : ℚ) ≤ ((n : ℚ) + 1) * ((n : ℚ) - 39) :=
            mul_nonneg (by linarith) (by linarith)
          linarith [hprod, mul_comm ((n : ℚ) + 1) ((n : ℚ) - 39)]
        refine ⟨n + 1, by omega, hn39, ?_, ?_, ?_⟩
        · rw [l3, j2, n3]
          push_cast
          norm_num [gravity]
          ring
        · rw [l2, m2]
          push_cast
          linarith [hsum]
        · rw [j3]
          push_cast
          linarith

/-- `JumperInv` holds all along a trace of ticks whose draws are not negative. -/
theorem jumper_follow (c : Canvas) (trace : List (Player × Rand))
    (htr : ∀ q ∈ trace, q.2.unit) (e : Enemy) (h : JumperInv c e) :
    JumperInv c (followEnemy c e trace) := by
  induction trace generalizing e with
  | nil => exact h
  | cons pr tr ih =>
    have hf : followEnemy c e (pr :: tr) = followEnemy c (stepEnemy c e pr) tr := rfl
    rw [hf]
    exact ih (fun q hq => htr q (List.mem_cons_of_mem _ hq)) _
      (jumper_step c e pr h (htr pr (List.mem_cons_self _ _) 0).1).1

/-- C19. A jumper created by `spawnEnemy` and followed through any ticks, with draws in
`[0, 1)`, never has its bottom edge below ground level after a tick, and whenever the jump
test of line 206 succeeds in the next tick (so that `ySpeed` is set to -8) it rests on the
ground with `ySpeed = 0`: it never starts a jump while airborne. -/
theorem jumper_no_double_jump (c : Canvas) (s : World) (r : Rand) (e : Enemy)
    (hs : (spawnEnemy c s r).1.enemies = s.enemies ++ [e]) (ht : e.type = .JUMPER)
    (trace : List (Player × Rand)) (htr : ∀ q ∈ trace, q.2.unit) :
    (followEnemy c e trace).type = .JUMPER ∧
    (followEnemy c e trace).y + (followEnemy c e trace).h ≤ c.height - groundHeight ∧
    ∀ (p : Player) (r2 : Rand), jumpsNow p (followEnemy c e trace) →
      ((followEnemy c e trace).y + (followEnemy c e trace).h = c.height - groundHeight ∧
        (followEnemy c e trace).ySpeed = 0) ∧
      (moveEnemy c p (followEnemy c e trace) r2).1.ySpeed = -8 + gravity := by
  have hinit : JumperInv c e := by
    refine ⟨ht, Or.inl ?_⟩
    rcases spawnEnemy_cases c s r with ⟨_, h1⟩ | ⟨_, e1, h1, _, hy, _, hh, hty⟩
    · rw [h1] at hs
      simp at hs
    · rw [h1] at hs
      simp only [List.append_cancel_left_eq, List.cons.injEq, and_true] at hs
      rw [hs] at hy hh hty
      rcases hty with ⟨t1, _⟩ | ⟨t1, _⟩ | ⟨_, _, _, _, t5⟩
      · rw [ht] at t1
        exact absurd t1 (by decide)
      · rw [ht] at t1
        exact absurd t1 (by decide)
      · exact ⟨by rw [hy, hh]; ring, t5⟩
  have hinv := jumper_follow c trace htr e hinit
  refine ⟨hinv.1, JumperInv_ground c _ hinv, ?_⟩
  intro p r2 hj
  have hrest : (followEnemy c e trace).y + (followEnemy c e trace).h =
      c.height - groundHeight ∧ (followEnemy c e trace).ySpeed = 0 := by
    obtain ⟨_, hcase⟩ := hinv
    rcases hcase with h1 | ⟨n, n1, n2, _, _, n5⟩
    · exact h1
    · have a2 : (n : ℚ) ≤ 39 := by exact_mod_cast n2
      have := hj.1
      linarith
  refine ⟨hrest, ?_⟩
  obtain ⟨_, _, v, mj, ml⟩ := moveEnemy_jumper c p (followEnemy c e trace) r2 hinv.1
  rcases mj with ⟨_, j2, _⟩ | ⟨j1, _, _⟩
  · rcases ml with ⟨l1, _, _⟩ | ⟨_, _, l3⟩
    · rw [j2] at l1
      have := hrest.1
      norm_num [gravity] at l1
      linarith
    · rw [l3, j2]
  · exact absurd hj j1

/-! ## The theorems on concrete inputs -/

theorem constRand_unit (q : ℚ) (h0 : 0 ≤ q) (h1 : q < 1) : (constRand q).unit :=
  fun _ => ⟨h0, h1⟩

theorem idleTrace_unit : ∀ q ∈ idleTrace, q.2.unit := by
  intro q hq
  rw [List.eq_of_mem_replicate hq]
  exact constRand_unit 0 (le_refl 0) zero_lt_one

/-- With a type roll of 19/20 `spawnEnemy` appends a jumper at 800 to the initial world of
an 800 by 400 canvas. -/
theorem fresh_jumper :
    (spawnEnemy canvas0 (initialWorld canvas0) (constRand (19 / 20))).1.enemies =
      (initialWorld canvas0).enemies ++ [jumperAt canvas0 800] := by
  decide!

/-- Witness of C16 on the initial world of an 800 by 400 canvas. -/
theorem never_below_ground_witness :
    ((initialWorld canvas0).gameOver = false ∧ (initialWorld canvas0).platforms ≠ []) ∧
    (∃ s1 r1, update canvas0 (initialWorld canvas0) (constRand 0) = some (s1, r1) ∧
      s1.player.y + s1.player.h ≤ canvas0.height - groundHeight ∧
      (((initialWorld canvas0).player.y + ((initialWorld canvas0).player.ySpeed + gravity) + (initialWorld canvas0).player.h ≥ canvas0.height - groundHeight ∧
          s1.player.y = canvas0.height - groundHeight - s1.player.h ∧ s1.player.ySpeed = 0 ∧
          s1.player.onGround = true) ∨
        ((initialWorld canvas0).player.y + ((initialWorld canvas0).player.ySpeed + gravity) + (initialWorld canvas0).player.h < canvas0.height - groundHeight ∧
          s1.player.onGround = false ∧
          s1.player.jumpsRemaining = (initialWorld canvas0).player.jumpsRemaining))) :=
  ⟨⟨rfl, by decide⟩,
    never_below_ground canvas0 (initialWorld canvas0) (constRand 0) rfl (by decide)⟩

/-- Witness of C12 (amended) on `backedUpWorld`, where the attempt is due and skipped. -/
theorem score_counts_attempts_witness :
    (backedUpWorld.gameOver = false ∧ backedUpWorld.platforms ≠ []) ∧
    (∃ last s1 r1, (backedUpWorld.platforms.map scrollPlatform).getLast? = some last ∧
      update canvas0 backedUpWorld (constRand 0) = some (s1, r1) ∧
      ((backedUpWorld.lastSpawn + 1 < backedUpWorld.spawnRate ∧ (afterSpawn canvas0 backedUpWorld last (constRand 0)).1.enemies = backedUpWorld.enemies ∧
          s1.score = backedUpWorld.score ∧ s1.lastSpawn = backedUpWorld.lastSpawn + 1) ∨
        (backedUpWorld.spawnRate ≤ backedUpWorld.lastSpawn + 1 ∧ s1.score = backedUpWorld.score + 1 ∧ s1.lastSpawn = 0 ∧
          ((getSafeSpawnPosition canvas0 backedUpWorld ≤ canvas0.width + 300 ∧
              ∃ e : Enemy, (afterSpawn canvas0 backedUpWorld last (constRand 0)).1.enemies = backedUpWorld.enemies ++ [e] ∧
                e.x = getSafeSpawnPosition canvas0 backedUpWorld) ∨
            (getSafeSpawnPosition canvas0 backedUpWorld > canvas0.width + 300 ∧
              (afterSpawn canvas0 backedUpWorld last (constRand 0)).1.enemies = backedUpWorld.enemies))))) :=
  ⟨⟨rfl, by decide⟩,
    score_counts_attempts canvas0 backedUpWorld (constRand 0) rfl (by decide)⟩

/-- Witness of C14 (amended) on a world whose walker ends its move with its right edge at 0. -/
theorem offscreen_removal_witness :
    ((worldWithWalker (-16)).gameOver = false ∧ (worldWithWalker (-16)).platforms ≠ []) ∧
    (∃ last s1 r1, ((worldWithWalker (-16)).platforms.map scrollPlatform).getLast? = some last ∧
      update canvas0 (worldWithWalker (-16)) (constRand 0) = some (s1, r1) ∧
      s1.enemies =
        (rollAttack (moveWorld canvas0 (worldWithWalker (-16)) last (constRand 0)).1.player (moveWorld canvas0 (worldWithWalker (-16)) last (constRand 0)).1.enemies).filter
          (fun e => decide (e.x + e.w > 0 ∧ e.hitPoints > 0)) ∧
      s1.bullets = ((moveWorld canvas0 (worldWithWalker (-16)) last (constRand 0)).1.bullets.map moveBullet).filter
          (fun b => decide (b.x + b.w > 0)) ∧
      (∀ e ∈ rollAttack (moveWorld canvas0 (worldWithWalker (-16)) last (constRand 0)).1.player (moveWorld canvas0 (worldWithWalker (-16)) last (constRand 0)).1.enemies,
        e.hitPoints > 0 → (e ∉ s1.enemies ↔ e.x + e.w ≤ 0)) ∧
      (∀ b ∈ (moveWorld canvas0 (worldWithWalker (-16)) last (constRand 0)).1.bullets.map moveBullet,
        (b ∉ s1.bullets ↔ b.x + b.w ≤ 0)) ∧
      s1.enemies.Sublist
        (rollAttack (moveWorld canvas0 (worldWithWalker (-16)) last (constRand 0)).1.player (moveWorld canvas0 (worldWithWalker (-16)) last (constRand 0)).1.enemies) ∧
      s1.bullets.Sublist ((moveWorld canvas0 (worldWithWalker (-16)) last (constRand 0)).1.bullets.map moveBullet)) :=
  ⟨⟨rfl, by decide⟩,
    offscreen_removal canvas0 (worldWithWalker (-16)) (constRand 0) rfl (by decide)⟩

/-- Witness of C17 on a world whose walker overlaps the rolling player. -/
theorem melee_damage_witness :
    ((rollingWorld 110).gameOver = false ∧ (rollingWorld 110).platforms ≠ []) ∧
    (∃ last s1 r1, ((rollingWorld 110).platforms.map scrollPlatform).getLast? = some last ∧
      update canvas0 (rollingWorld 110) (constRand 0) = some (s1, r1) ∧
      (s1.player.x = (moveWorld canvas0 (rollingWorld 110) last (constRand 0)).1.player.x ∧
        s1.player.y = (moveWorld canvas0 (rollingWorld 110) last (constRand 0)).1.player.y ∧
        s1.player.w = (moveWorld canvas0 (rollingWorld 110) last (constRand 0)).1.player.w ∧
        s1.player.h = (moveWorld canvas0 (rollingWorld 110) last (constRand 0)).1.player.h) ∧
      List.Forall₂ (fun e e1 => e1.hitPoints = e.hitPoints)
        (afterSpawn canvas0 (rollingWorld 110) last (constRand 0)).1.enemies (moveWorld canvas0 (rollingWorld 110) last (constRand 0)).1.enemies ∧
      ((0 < (rollingWorld 110).player.rollTimer ∧
          s1.enemies = ((moveWorld canvas0 (rollingWorld 110) last (constRand 0)).1.enemies.map
            (hitEnemy (moveWorld canvas0 (rollingWorld 110) last (constRand 0)).1.player)).filter keepEnemy ∧
          s1.player.rollTimer = (rollingWorld 110).player.rollTimer - 1) ∨
        ((rollingWorld 110).player.rollTimer ≤ 0 ∧
          s1.enemies = (moveWorld canvas0 (rollingWorld 110) last (constRand 0)).1.enemies.filter keepEnemy ∧
          s1.player.rollTimer = (rollingWorld 110).player.rollTimer)) ∧
      (∀ e : Enemy,
        (Overlap (moveWorld canvas0 (rollingWorld 110) last (constRand 0)).1.player e.x e.y e.w e.h ∧
          hitEnemy (moveWorld canvas0 (rollingWorld 110) last (constRand 0)).1.player e =
            { e with hitPoints := e.hitPoints - 1 }) ∨
        (¬ Overlap (moveWorld canvas0 (rollingWorld 110) last (constRand 0)).1.player e.x e.y e.w e.h ∧
          hitEnemy (moveWorld canvas0 (rollingWorld 110) last (constRand 0)).1.player e = e))) :=
  ⟨⟨rfl, by decide⟩,
    melee_damage canvas0 (rollingWorld 110) (constRand 0) rfl (by decide)⟩

/-- Witness of C15 on a run of two jumps, the second starting the roll, and one tick. -/
theorem roll_implies_invincible_witness :
    ∃ s r1, run canvas0 [Event.touch, Event.touch, Event.tick] (initialWorld canvas0) (constRand 0) = some (s, r1) ∧
      (0 ≤ s.player.rollTimer ∧ s.player.rollTimer ≤ 10) ∧
      (0 ≤ s.player.invincibleTimer ∧ s.player.invincibleTimer ≤ 15) ∧
      (s.player.rollTimer > 0 → s.player.invincibleTimer > 0) ∧
      (s.player.rollTimer > 0 →
        ∀ r2, ∃ s2 r3, update canvas0 s r2 = some (s2, r3) ∧ s2.gameOver = s.gameOver) :=
  roll_implies_invincible canvas0 [Event.touch, Event.touch, Event.tick] (constRand 0)

/-- Witness of C20 after three ticks from the start-up world, all draws 0. -/
theorem terrain_never_empty_witness :
    ((constRand 0).unit) ∧
    (∃ s r1, ticks canvas0 3 (startWorld canvas0 none) (constRand 0) = some (s, r1) ∧ s.platforms ≠ [] ∧
      ∀ r2 : Rand, r2.unit →
        ∃ s2 r3, update canvas0 s r2 = some (s2, r3) ∧ s2.platforms ≠ [] ∧ LastReaches canvas0 s2 ∧
          (s2.platforms = s.platforms ∨
            ∃ ps1 : List Platform,
              (ps1 = s.platforms.map scrollPlatform ∨
                ∃ p : Platform, p.x = canvas0.width ∧ ps1 = s.platforms.map scrollPlatform ++ [p]) ∧
              (s2.platforms = ps1 ∨
                (3 < ps1.length ∧ ∃ p0 : Platform, p0.x + p0.w < 0 ∧
                  ps1 = p0 :: s2.platforms)))) :=
  ⟨(constRand_unit 0 (le_refl 0) zero_lt_one),
    terrain_never_empty canvas0 none 3 (constRand 0) (constRand_unit 0 (le_refl 0) zero_lt_one)⟩

/-- Witness of C18 on a fresh shooter at 300, followed through 79 ticks. -/
theorem no_sustained_fire_witness :
    ((shooterAt canvas0 300).type = .SHOOTER ∧ (constRand 0).unit ∧ ∀ q ∈ idleTrace, q.2.unit) ∧
    ((moveEnemy canvas0 (initialWorld canvas0).player (shooterAt canvas0 300) (constRand 0)).2.1.length ≤ 1 ∧
    ((shootsNow (initialWorld canvas0).player (shooterAt canvas0 300) ∧
        (moveEnemy canvas0 (initialWorld canvas0).player (shooterAt canvas0 300) (constRand 0)).2.1 =
          [{ x := (shooterAt canvas0 300).x - (shooterAt canvas0 300).speed, y := (shooterAt canvas0 300).y + (shooterAt canvas0 300).h / 2, w := 8, h := 8, speed := 4 }] ∧
        80 ≤ (moveEnemy canvas0 (initialWorld canvas0).player (shooterAt canvas0 300) (constRand 0)).1.cooldown ∧ (moveEnemy canvas0 (initialWorld canvas0).player (shooterAt canvas0 300) (constRand 0)).1.cooldown < 120) ∨
      (¬ shootsNow (initialWorld canvas0).player (shooterAt canvas0 300) ∧ (moveEnemy canvas0 (initialWorld canvas0).player (shooterAt canvas0 300) (constRand 0)).2.1 = [] ∧
        (moveEnemy canvas0 (initialWorld canvas0).player (shooterAt canvas0 300) (constRand 0)).1.cooldown = (shooterAt canvas0 300).cooldown - 1)) ∧
    (shootsNow (initialWorld canvas0).player (shooterAt canvas0 300) →
      ∀ p2 : Player, shootsNow p2 (followEnemy canvas0 (stepEnemy canvas0 (shooterAt canvas0 300) ((initialWorld canvas0).player, (constRand 0))) idleTrace) →
        79 ≤ idleTrace.length)) :=
  ⟨⟨rfl, (constRand_unit 0 (le_refl 0) zero_lt_one), idleTrace_unit⟩,
    no_sustained_fire canvas0 (shooterAt canvas0 300) rfl (initialWorld canvas0).player (constRand 0) (constRand_unit 0 (le_refl 0) zero_lt_one) idleTrace idleTrace_unit⟩

/-- Witness of C19 on the jumper `spawnEnemy` creates in the initial world when the type roll is 19/20. -/
theorem jumper_no_double_jump_witness :
    ((spawnEnemy canvas0 (initialWorld canvas0) (constRand (19 / 20))).1.enemies =
      (initialWorld canvas0).enemies ++ [jumperAt canvas0 800] ∧ (jumperAt canvas0 800).type = .JUMPER ∧ ∀ q ∈ idleTrace, q.2.unit) ∧
    ((followEnemy canvas0 (jumperAt canvas0 800) idleTrace).type = .JUMPER ∧
    (followEnemy canvas0 (jumperAt canvas0 800) idleTrace).y + (followEnemy canvas0 (jumperAt canvas0 800) idleTrace).h ≤ canvas0.height - groundHeight ∧
    ∀ (p : Player) (r2 : Rand), jumpsNow p (followEnemy canvas0 (jumperAt canvas0 800) idleTrace) →
      ((followEnemy canvas0 (jumperAt canvas0 800) idleTrace).y + (followEnemy canvas0 (jumperAt canvas0 800) idleTrace).h = canvas0.height - groundHeight ∧
        (followEnemy canvas0 (jumperAt canvas0 800) idleTrace).ySpeed = 0) ∧
      (moveEnemy canvas0 p (followEnemy canvas0 (jumperAt canvas0 800) idleTrace) r2).1.ySpeed = -8 + gravity) :=
  ⟨⟨fresh_jumper, rfl, idleTrace_unit⟩,
    jumper_no_double_jump canvas0 (initialWorld canvas0) (constRand (19 / 20)) (jumperAt canvas0 800) fresh_jumper rfl idleTrace idleTrace_unit⟩

end DemonRun
